import Mathlib

/-!
Verification development for the cross-database query federation pipeline of the
db-query backend (src/backend/src/services/datafusion). The Rust source is shallowly
embedded: pure functions become Lean functions over explicit data, fallible functions
return `Except AppError`, Rust `HashMap` values are modelled as association lists whose
list order stands for the (unspecified) hash-map iteration order, and the external
libraries (sqlparser, DataFusion, serde_json) appear as explicit inputs: SQL parsing
results are passed in as AST values, and the embedded DataFusion engine is a parameter
of the executor.
-/

set_option autoImplicit false

namespace DbQuery

/-- Character constants used by the dialect translator, written via code points so the
embedding stays textual. 39 is the single quote, 34 the double quote, 96 the backtick. -/
def squoteChar : Char := Char.ofNat 39

/-- Double quote character. -/
def dquoteChar : Char := Char.ofNat 34

/-- Backtick character. -/
def backtickChar : Char := Char.ofNat 96

/-- Fuel-indexed core of Rust `str::replace`: replaces every non-overlapping occurrence
of `pat` in the subject, scanning left to right. The fuel starts at the subject length,
which suffices because every step consumes at least one character. -/
def replaceAllAux (pat rep : List Char) : Nat → List Char → List Char
  | 0, s => s
  | Nat.succ n, s =>
    match s with
    | [] => []
    | c :: rest =>
      if pat.isPrefixOf s && !pat.isEmpty
      then rep ++ replaceAllAux pat rep n (s.drop pat.length)
      else c :: replaceAllAux pat rep n rest

/-- Model of Rust `str::replace(pat, rep)` on strings. -/
def rustReplace (s pat rep : String) : String :=
  String.mk (replaceAllAux pat.data rep.data s.data.length s.data)

/-- Substring test on character lists, used to state facts about translator output. -/
def listContainsSub : List Char → List Char → Bool
  | [], pat => pat.isEmpty
  | c :: rest, pat => pat.isPrefixOf (c :: rest) || listContainsSub rest pat

/-- Substring test on strings. -/
def strContainsSub (s pat : String) : Bool :=
  listContainsSub s.data pat.data

/-- Error type of the backend, from src/backend/src/api/middleware.rs (`enum AppError`).
Only the variants reachable from the federation pipeline are listed. -/
inductive AppError where
  | Database (msg : String)
  | Connection (msg : String)
  | InvalidSql (msg : String)
  | Validation (msg : String)
  deriving DecidableEq

/-- Predicate selecting validation errors, used to state the error-taxonomy claims. -/
def AppError.isValidation : AppError → Prop
  | .Validation _ => True
  | _ => False

/-- Model of an IEEE 754 double as carried by serde_json. The federation pipeline only
moves doubles around and never computes with them, so the payload is kept symbolic:
`fromInt` is the value produced by the Rust `as f64` widening of an i64, and `lit`
stands for any other double, tagged by its source text. -/
inductive F64 where
  | fromInt (i : Int)
  | lit (tag : String)
  deriving DecidableEq

/-- Model of a serde_json scalar cell value. `other` stands for any non-primitive JSON
value (array or nested object), tagged with the text its `to_string` rendering would
produce; the executor only ever asks such values for `as_i64`, `as_f64`, `as_str`
(all of which answer none) or `to_string`. -/
inductive JVal where
  | null
  | bool (b : Bool)
  | int (i : Int)
  | float (f : F64)
  | str (s : String)
  | other (rendered : String)
  deriving DecidableEq

/-- Model of a top-level serde_json value as exchanged by adapters and the executor:
either a JSON object (the usual row shape) or some non-object value. -/
inductive Json where
  | val (v : JVal)
  | obj (fields : List (String × JVal))
  deriving DecidableEq

/-- Model of serde_json `Value::as_object`. -/
def Json.asObject : Json → Option (List (String × JVal))
  | .obj fields => some fields
  | .val _ => none

/-- Model of serde_json `Value::get(key)`: field lookup on objects, none otherwise. -/
def Json.get : Json → String → Option JVal
  | .obj fields, k => fields.lookup k
  | .val _, _ => none

/-- Model of serde_json `Number::as_i64` lifted to values: answers only for integers. -/
def JVal.asI64 : JVal → Option Int
  | .int i => some i
  | _ => none

/-- Model of serde_json `Value::as_f64`: answers for floats and also widens integers. -/
def JVal.asF64 : JVal → Option F64
  | .float f => some f
  | .int i => some (F64.fromInt i)
  | _ => none

/-- Model of serde_json `Value::as_str`: answers only for strings. -/
def JVal.asStr : JVal → Option String
  | .str s => some s
  | _ => none

/-- Model of serde_json `Value::to_string`, the JSON text rendering; used by the
executor only on the fallback column path. -/
def JVal.render : JVal → String
  | .null => "null"
  | .bool true => "true"
  | .bool false => "false"
  | .int i => toString i
  | .float (F64.fromInt i) => toString i
  | .float (F64.lit tag) => tag
  | .str s => String.mk (dquoteChar :: s.data ++ [dquoteChar])
  | .other rendered => rendered

/-- Modelled from the spec: the file src/backend/src/models/cross_database_query.rs is
declared in models/mod.rs but absent from the source tree; this request shape follows
spec section 6 (query text, connection id list, optional alias map, timeout, limit
flag and value). The alias map is an association list standing for the JSON object. -/
structure CrossDatabaseQueryRequest where
  query : String
  connection_ids : List String
  database_aliases : Option (List (String × String))
  timeout_secs : Option Nat
  apply_limit : Option Bool
  limit_value : Option Nat
  deriving DecidableEq

/-- Modelled from the spec: request validation from the missing models file. Spec
section 3 requires a non-empty query and at least one connection before planning. -/
def CrossDatabaseQueryRequest.validate (r : CrossDatabaseQueryRequest) : Except String Unit :=
  if r.query = "" then .error "Query cannot be empty"
  else if r.connection_ids = [] then .error "At least one connection ID is required"
  else .ok ()

/-- Modelled from the spec: one equality predicate between two sub-query result sets
(spec section 3, JoinCondition), from the missing models file. Field names follow the
uses in cross_db_planner.rs and federated_executor.rs. -/
structure JoinCondition where
  left_alias : String
  left_column : String
  right_alias : String
  right_column : String
  deriving DecidableEq

/-- Modelled from the spec: merge strategy variants (spec section 3), from the missing
models file; variant and field names follow the uses in the planner and executor. -/
inductive MergeStrategy where
  | none
  | innerJoin (conditions : List JoinCondition)
  | leftJoin (conditions : List JoinCondition)
  | union (all : Bool)
  deriving DecidableEq

/-- Predicate for the join-shaped strategies, used by the plan invariant claim. -/
def MergeStrategy.isJoin : MergeStrategy → Prop
  | .innerJoin _ => True
  | .leftJoin _ => True
  | _ => False

/-- Modelled from the spec: one engine-scoped query fragment (spec section 3), from the
missing models file; field names follow the uses in the planner and executor. -/
structure SubQuery where
  connection_id : String
  database_type : String
  query : String
  tables : List String
  result_alias : String
  deriving DecidableEq

/-- Modelled from the spec: the planner output (spec section 3), from the missing
models file; field names follow the uses in the planner and executor. -/
structure CrossDatabaseExecutionPlan where
  original_query : String
  sub_queries : List SubQuery
  merge_strategy : MergeStrategy
  timeout_secs : Nat
  apply_limit : Bool
  limit_value : Nat
  deriving DecidableEq

/-- Modelled from the spec: execution report for one sub-query (spec section 3), from
the missing models file; field names follow the uses in federated_executor.rs. -/
structure SubQueryExecution where
  connection_id : String
  database_type : String
  query : String
  row_count : Nat
  execution_time_ms : Nat
  deriving DecidableEq

/-- Modelled from the spec: the final merged response (spec sections 3 and 6), from the
missing models file. The constructor argument order follows the call
`CrossDatabaseQueryResponse::new(original_query, sub_query_executions, merged_results,
execution_time_ms, apply_limit)` in federated_executor.rs, so the last argument is the
`limit_applied` field of the response. -/
structure CrossDatabaseQueryResponse where
  original_query : String
  sub_queries : List SubQueryExecution
  merged_rows : List Json
  execution_time_ms : Nat
  limit_applied : Bool
  deriving DecidableEq

/-! ### The sqlparser AST fragment consumed by the planner

The planner consumes the sqlparser-rs AST. Only the constructors the planner inspects
are modelled; every other shape is collapsed into an explicit `other` constructor that
the planner code skips or rejects, mirroring its catch-all match arms. Identifiers are
their rendered text. The `isAll` flag on a set operation models the parsed
`SetQuantifier` (UNION ALL versus plain UNION); the planner source never reads it. -/

/-- Binary operators distinguished by the join-condition extractor. -/
inductive BinaryOperator where
  | eq
  | andOp
  | otherOp
  deriving DecidableEq

/-- Expression fragment inspected by `extract_table_column` and the condition walk. -/
inductive SqlExpr where
  | binaryOp (left : SqlExpr) (op : BinaryOperator) (right : SqlExpr)
  | compoundIdentifier (idents : List String)
  | identifier (ident : String)
  | otherExpr
  deriving DecidableEq

/-- Join constraint: an ON expression or anything else (USING, NATURAL, none). -/
inductive JoinConstraint where
  | onExpr (e : SqlExpr)
  | otherConstraint
  deriving DecidableEq

/-- Join operator shapes distinguished by `extract_join_conditions`. -/
inductive JoinOperator where
  | inner (c : JoinConstraint)
  | leftOuter (c : JoinConstraint)
  | rightOuter (c : JoinConstraint)
  | otherJoin
  deriving DecidableEq

/-- Table factor: a named table with optional alias, or any other factor shape
(derived table, nested join, table function), which `extract_tables` skips. -/
inductive TableFactor where
  | table (name : List String) (tableAlias : Option String)
  | otherFactor
  deriving DecidableEq

/-- One JOIN item of a FROM entry. -/
structure JoinAst where
  relation : TableFactor
  joinOperator : JoinOperator
  deriving DecidableEq

/-- One FROM entry: a base relation and its joins. -/
structure TableWithJoins where
  relation : TableFactor
  joins : List JoinAst
  deriving DecidableEq

/-- SELECT fragment: the planner reads only the FROM clause. The `text` field carries
the canonical rendering that the sqlparser `Display` instance would produce for the
fragment; the source formats the fragment back to text in the UNION path and then
re-parses it, a round trip that is the identity on this fragment. -/
structure SelectAst where
  fromClause : List TableWithJoins
  text : String
  deriving DecidableEq

/-- Set operators of sqlparser: UNION ALL and plain UNION are both `union` at the
operator level, distinguished only by the quantifier flag carried by the node. -/
inductive SetOperator where
  | union
  | intersect
  | exceptOp
  deriving DecidableEq

/-- Query body shapes inspected by the planner. -/
inductive SetExpr where
  | select (s : SelectAst)
  | setOperation (op : SetOperator) (isAll : Bool) (left : SetExpr) (right : SetExpr)
  | query (body : SetExpr)
  | valuesExpr
  deriving DecidableEq

/-- Parsed query: the planner reads only the body. -/
structure QueryAst where
  body : SetExpr
  deriving DecidableEq

/-- Parsed statement: a query, or any other statement kind, which planning rejects. -/
inductive Statement where
  | query (q : QueryAst)
  | otherStatement
  deriving DecidableEq

/-! ### Cross-database query planner

Embedding of src/backend/src/services/datafusion/cross_db_planner.rs. The planner
holds a qualifier-to-connection map, a Rust `HashMap` modelled as an association list
whose list order stands for the hash-map iteration order (`keys().next()` is the head).
SQL parsing is external (sqlparser), so `plan_query` takes the parsed statement list as
an argument next to the raw request. -/

/-- Planner state: the map of table qualifiers to connection IDs. -/
structure CrossDatabaseQueryPlanner where
  connection_map : List (String × String)
  deriving DecidableEq

/-- Entry produced by table extraction: qualifier, optional alias, table name. -/
abbrev TableEntry := String × Option String × String

namespace CrossDatabaseQueryPlanner

/-- Embedding of `parse_table_name`: a one-part name is assigned the first qualifier of
the connection map, a two-part name must use a known qualifier, anything longer is
rejected as invalid SQL. -/
def parse_table_name (self : CrossDatabaseQueryPlanner) (name : List String) :
    Except AppError (String × String) :=
  match name with
  | [t] =>
    match self.connection_map.head? with
    | Option.none => .error (.Validation "No connection IDs available")
    | some kv => .ok (kv.1, t)
  | [q, t] =>
    if (self.connection_map.lookup q).isSome then .ok (q, t)
    else .error (.Validation ("Unknown database qualifier " ++ q))
  | _ => .error (.InvalidSql ("Invalid table name format: " ++ String.intercalate "." name))

/-- Flat list of the table factors `extract_tables` visits, in visit order: for each
FROM entry first its base relation, then the relations of its joins. -/
def selectFactors (s : SelectAst) : List TableFactor :=
  s.fromClause.flatMap (fun twj => twj.relation :: twj.joins.map (fun j => j.relation))

/-- Folds `parse_table_name` over a factor list, skipping non-table factors, exactly as
the two loops of `extract_tables` do in visit order. -/
def extractFactors (self : CrossDatabaseQueryPlanner) :
    List TableFactor → Except AppError (List TableEntry)
  | [] => .ok []
  | TableFactor.table name a :: rest => do
    let qt ← self.parse_table_name name
    let more ← self.extractFactors rest
    pure ((qt.1, a, qt.2) :: more)
  | TableFactor.otherFactor :: rest => self.extractFactors rest

/-- Embedding of `extract_tables`. -/
def extract_tables (self : CrossDatabaseQueryPlanner) (s : SelectAst) :
    Except AppError (List TableEntry) :=
  self.extractFactors (selectFactors s)

/-- Appends a table under its connection ID, modelling `entry().or_insert_with` on the
grouping map with first-insertion key order. -/
def insertTable (m : List (String × List String)) (conn t : String) :
    List (String × List String) :=
  match m with
  | [] => [(conn, [t])]
  | (k, ts) :: rest =>
    if k = conn then (k, ts ++ [t]) :: rest else (k, ts) :: insertTable rest conn t

/-- Accumulating loop of `identify_databases`. -/
def identifyGo (self : CrossDatabaseQueryPlanner) (acc : List (String × List String)) :
    List TableEntry → Except AppError (List (String × List String))
  | [] => .ok acc
  | (q, _, t) :: rest =>
    match self.connection_map.lookup q with
    | Option.none => .error (.Validation ("Unknown qualifier: " ++ q))
    | some conn => self.identifyGo (insertTable acc conn t) rest

/-- Embedding of `identify_databases`: groups table names by resolved connection ID. -/
def identify_databases (self : CrossDatabaseQueryPlanner) (tables : List TableEntry) :
    Except AppError (List (String × List String)) :=
  self.identifyGo [] tables

/-- Embedding of `strip_qualifiers`: the source first re-parses the SQL (which can only
reject, never rewrite; the callers only pass text that already parsed) and then deletes
every occurrence of `alias.` for each alias of the connection map, by plain string
replacement in map iteration order. -/
def strip_qualifiers (self : CrossDatabaseQueryPlanner) (sql : String) : String :=
  self.connection_map.foldl (fun acc kv => rustReplace acc (kv.1 ++ ".") "") sql

/-- Embedding of `plan_single_database_query`. The source indexes `tables[0]`, which is
only reached with a non-empty table list; the empty case is kept as an error so the
function stays total. -/
def plan_single_database_query (self : CrossDatabaseQueryPlanner)
    (tables : List TableEntry) (request : CrossDatabaseQueryRequest) :
    Except AppError CrossDatabaseExecutionPlan :=
  match tables with
  | [] => .error (.Validation "No tables found")
  | (q, _, _) :: _ =>
    match self.connection_map.lookup q with
    | Option.none => .error (.Validation ("Unknown qualifier: " ++ q))
    | some conn =>
      .ok
        { original_query := request.query
          sub_queries :=
            [{ connection_id := conn
               database_type := "unknown"
               query := self.strip_qualifiers request.query
               tables := tables.map (fun e => e.2.2)
               result_alias := "result" }]
          merge_strategy := MergeStrategy.none
          timeout_secs := request.timeout_secs.getD 60
          apply_limit := request.apply_limit.getD true
          limit_value := request.limit_value.getD 1000 }

/-- Embedding of `extract_table_column`: accepts exactly two-part compound identifiers
and maps the qualifier through the table-alias map, keeping it unchanged when absent.
The source wraps the result in `Ok` and never errors, so the embedding is pure. -/
def extract_table_column (tableAliases : List (String × String)) :
    SqlExpr → Option (String × String)
  | SqlExpr.compoundIdentifier [t, c] => some (((tableAliases.lookup t).getD t), c)
  | _ => Option.none

/-- Embedding of `parse_all_join_conditions`: collects every equality between two
resolvable column references across an AND tree, in left-to-right order. -/
def parse_all_join_conditions (tableAliases : List (String × String)) :
    SqlExpr → List JoinCondition
  | SqlExpr.binaryOp l BinaryOperator.andOp r =>
    parse_all_join_conditions tableAliases l ++ parse_all_join_conditions tableAliases r
  | SqlExpr.binaryOp l BinaryOperator.eq r =>
    match extract_table_column tableAliases l, extract_table_column tableAliases r with
    | some (lt, lc), some (rt, rc) =>
      [{ left_alias := lt, left_column := lc, right_alias := rt, right_column := rc }]
    | _, _ => []
  | _ => []

/-- Map built by `extract_join_conditions` before the walk: it inserts
`table_name -> alias_or_table_name` for every extracted table; a later duplicate key
overwrites, which the association list models by consing in front. -/
def buildTableAliases (tables : List TableEntry) : List (String × String) :=
  tables.foldl (fun m e => (e.2.2, e.2.1.getD e.2.2) :: m) []

/-- Conditions contributed by one JOIN item: only inner, left outer and right outer
joins with an ON constraint are walked. -/
def joinItemConditions (tableAliases : List (String × String)) (j : JoinAst) :
    List JoinCondition :=
  match j.joinOperator with
  | JoinOperator.inner (JoinConstraint.onExpr e) => parse_all_join_conditions tableAliases e
  | JoinOperator.leftOuter (JoinConstraint.onExpr e) => parse_all_join_conditions tableAliases e
  | JoinOperator.rightOuter (JoinConstraint.onExpr e) => parse_all_join_conditions tableAliases e
  | _ => []

/-- Embedding of `extract_join_conditions`. -/
def extract_join_conditions (s : SelectAst) (tables : List TableEntry) :
    List JoinCondition :=
  let tableAliases := buildTableAliases tables
  s.fromClause.flatMap (fun twj => twj.joins.flatMap (joinItemConditions tableAliases))

/-- Result alias chosen for one sub-query of a join plan: the alias (or name) of the
first extracted table owned by the connection, with a fallback name. -/
def joinResultAlias (self : CrossDatabaseQueryPlanner) (tables : List TableEntry)
    (conn : String) (tableNames : List String) : String :=
  match tables.find? (fun e =>
    (self.connection_map.lookup e.1 == some conn) && tableNames.contains e.2.2) with
  | some e => e.2.1.getD e.2.2
  | Option.none => "result_" ++ conn

/-- Embedding of `plan_join_query`. The source also builds a table-to-connection map
here that nothing reads (dead code), and chooses `InnerJoin { conditions }` on both
branches of its final conditional (with an empty condition list when none were found),
so the strategy is always `InnerJoin` with the extracted conditions. -/
def plan_join_query (self : CrossDatabaseQueryPlanner) (s : SelectAst)
    (tables : List TableEntry) (request : CrossDatabaseQueryRequest) :
    Except AppError CrossDatabaseExecutionPlan := do
  let databases ← self.identify_databases tables
  let join_conditions := extract_join_conditions s tables
  let sub_queries := databases.map (fun d =>
    { connection_id := d.1
      database_type := "unknown"
      query := "SELECT * FROM " ++ String.intercalate ", " d.2
      tables := d.2
      result_alias := self.joinResultAlias tables d.1 d.2 })
  pure
    { original_query := request.query
      sub_queries := sub_queries
      merge_strategy := MergeStrategy.innerJoin join_conditions
      timeout_secs := request.timeout_secs.getD 60
      apply_limit := request.apply_limit.getD true
      limit_value := request.limit_value.getD 1000 }

/-- Embedding of `extract_set_operation_selects`: collects the SELECT leaves of a set
operation tree in order; a Values leaf contributes nothing (the source only logs). The
source returns a `Result` that is never an error. -/
def extract_set_operation_selects : SetExpr → List SelectAst
  | SetExpr.select s => [s]
  | SetExpr.setOperation _ _ l r =>
    extract_set_operation_selects l ++ extract_set_operation_selects r
  | SetExpr.query b => extract_set_operation_selects b
  | SetExpr.valuesExpr => []

/-- Embedding of `extract_union_selects`. -/
def extract_union_selects (body : SetExpr) : Except AppError (List SelectAst) :=
  match extract_set_operation_selects body with
  | [] => .error (.InvalidSql "No SELECT statements found in UNION")
  | s :: rest => .ok (s :: rest)

/-- Loop body of `plan_union_query` over the extracted SELECT fragments. The source
formats each fragment back to text and re-parses it, the identity round trip on this
fragment; a fragment without tables is skipped, the enumeration index advancing
either way. -/
def buildUnionSubQueries (self : CrossDatabaseQueryPlanner) :
    List SelectAst → Nat → Except AppError (List SubQuery)
  | [], _ => .ok []
  | s :: rest, idx => do
    let tables ← self.extract_tables s
    match tables with
    | [] => self.buildUnionSubQueries rest (idx + 1)
    | (q, _, _) :: _ =>
      match self.connection_map.lookup q with
      | Option.none => .error (.Validation ("Unknown qualifier: " ++ q))
      | some conn => do
        let more ← self.buildUnionSubQueries rest (idx + 1)
        pure
          ({ connection_id := conn
             database_type := "unknown"
             query := self.strip_qualifiers s.text
             tables := tables.map (fun e => e.2.2)
             result_alias := "union_part_" ++ toString idx } :: more)

/-- Embedding of `plan_union_query`. The flag `is_union_all` is computed as
`matches!(op, SetOperator::Union)` in the source, which holds for plain UNION as well
as UNION ALL, the parsed quantifier being ignored. -/
def plan_union_query (self : CrossDatabaseQueryPlanner) (body : SetExpr)
    (request : CrossDatabaseQueryRequest) (op : SetOperator) :
    Except AppError CrossDatabaseExecutionPlan := do
  let is_union_all := op == SetOperator.union
  let select_queries ← extract_union_selects body
  let sub_queries ← self.buildUnionSubQueries select_queries 0
  if sub_queries.isEmpty then
    .error (.InvalidSql "No valid sub-queries found in UNION")
  else
    pure
      { original_query := request.query
        sub_queries := sub_queries
        merge_strategy := MergeStrategy.union is_union_all
        timeout_secs := request.timeout_secs.getD 60
        apply_limit := request.apply_limit.getD true
        limit_value := request.limit_value.getD 1000 }

/-- Embedding of `plan_select_query`: a set operation body goes to the union planner, a
plain SELECT is decomposed by the number of distinct owning connections, and any other
body shape is rejected. The source calls `plan_join_query` on both multi-database
branches (with and without explicit JOIN items). -/
def plan_select_query (self : CrossDatabaseQueryPlanner) (q : QueryAst)
    (request : CrossDatabaseQueryRequest) : Except AppError CrossDatabaseExecutionPlan :=
  match q.body with
  | SetExpr.setOperation op _ _ _ => self.plan_union_query q.body request op
  | SetExpr.select s => do
    let tables ← self.extract_tables s
    if tables.isEmpty then .error (.InvalidSql "No tables found in query")
    else do
      let databases ← self.identify_databases tables
      if databases.length == 1 then self.plan_single_database_query tables request
      else self.plan_join_query s tables request
  | _ => .error (.InvalidSql "Unsupported query structure for cross-database execution")

/-- Embedding of `plan_query`: validates the request, then plans the first parsed
statement, rejecting empty parses and non-query statements. Parsing itself is external
(sqlparser), so the parsed statement list is an argument. -/
def plan_query (self : CrossDatabaseQueryPlanner) (request : CrossDatabaseQueryRequest)
    (statements : List Statement) : Except AppError CrossDatabaseExecutionPlan :=
  match request.validate with
  | .error e => .error (.Validation e)
  | .ok _ =>
    match statements with
    | [] => .error (.InvalidSql "Empty query")
    | Statement.query q :: _ => self.plan_select_query q request
    | Statement.otherStatement :: _ =>
      .error (.InvalidSql "Only SELECT queries are supported for cross-database execution")

end CrossDatabaseQueryPlanner

/-! ### Dialect translation service

Embedding of src/backend/src/services/datafusion/dialect.rs. The MySQL translator
first re-parses the input through sqlparser, a step that can only reject malformed text
and never rewrites it; the rewrite pipeline below is the translation applied to every
input the parser accepts. The generic translator does not even parse. -/

/-- State-machine step stream of `MySQLDialectTranslator::translate_identifiers`: a
single quote toggles the string state unless inside an identifier, a double quote
outside a string toggles the identifier state and is emitted as a backtick, everything
else passes through. -/
def translateIdentChars : List Char → Bool → Bool → List Char
  | [], _, _ => []
  | c :: rest, inString, inIdentifier =>
    if c = squoteChar then
      c :: translateIdentChars rest (if inIdentifier then inString else !inString) inIdentifier
    else if c = dquoteChar && !inString then
      backtickChar :: translateIdentChars rest inString (!inIdentifier)
    else
      c :: translateIdentChars rest inString inIdentifier

/-- Embedding of `MySQLDialectTranslator::translate_identifiers`. -/
def mysql_translate_identifiers (sql : String) : String :=
  String.mk (translateIdentChars sql.data false false)

/-- Embedding of `MySQLDialectTranslator::translate_interval`: six fixed textual
patterns are replaced, in this order; every other INTERVAL literal is untouched. -/
def mysql_translate_interval (sql : String) : String :=
  let r1 := rustReplace sql "INTERVAL \x271 day\x27" "INTERVAL 1 DAY"
  let r2 := rustReplace r1 "INTERVAL \x277 days\x27" "INTERVAL 7 DAY"
  let r3 := rustReplace r2 "INTERVAL \x2730 days\x27" "INTERVAL 30 DAY"
  let r4 := rustReplace r3 "INTERVAL \x271 hour\x27" "INTERVAL 1 HOUR"
  let r5 := rustReplace r4 "INTERVAL \x271 month\x27" "INTERVAL 1 MONTH"
  rustReplace r5 "INTERVAL \x271 year\x27" "INTERVAL 1 YEAR"

/-- Embedding of `MySQLDialectTranslator::translate_date_functions`. -/
def mysql_translate_date_functions (sql : String) : String :=
  rustReplace (rustReplace sql "CURRENT_DATE" "CURDATE()") "CURRENT_TIMESTAMP" "NOW()"

/-- Embedding of the rewrite pipeline of `MySQLDialectTranslator::translate`:
identifier quoting, then INTERVAL literals, then date functions (the concat step is a
no-op in the source). -/
def mysql_translate (sql : String) : String :=
  mysql_translate_date_functions (mysql_translate_interval (mysql_translate_identifiers sql))

/-- Embedding of `GenericDialectTranslator::translate`: unconditional pass-through. -/
def generic_translate (sql : String) : Except String String :=
  .ok sql

/-! ### Federated executor

Embedding of src/backend/src/services/datafusion/federated_executor.rs. The Arrow
columnar layer is modelled by typed option lists (the option encodes the null bit), and
`RecordBatch::try_new` performs the Arrow validation that every column matches its
schema field type and that all columns agree on length. The embedded DataFusion engine
and the per-connection adapters are I/O and appear as function parameters: an adapter
maps a SQL text to the rows it returns, and the engine maps the registered relations
plus a merge SQL text to the merged rows it produces (already converted back to JSON,
a row-for-row conversion, so applying the row limit before or after it is the same). -/

/-- Arrow data types inferred by the executor. -/
inductive ArrowDataType where
  | int64
  | float64
  | utf8
  | boolean
  deriving DecidableEq

/-- Arrow schema field: name, type, nullable flag. -/
structure ArrowField where
  name : String
  dataType : ArrowDataType
  nullable : Bool
  deriving DecidableEq

/-- Typed column of an Arrow record batch; a none entry is a null bit. -/
inductive ArrowColumn where
  | int64 (vals : List (Option Int))
  | float64 (vals : List (Option F64))
  | utf8 (vals : List (Option String))
  deriving DecidableEq

/-- Data type of a column value vector. -/
def ArrowColumn.dataType : ArrowColumn → ArrowDataType
  | .int64 _ => ArrowDataType.int64
  | .float64 _ => ArrowDataType.float64
  | .utf8 _ => ArrowDataType.utf8

/-- Number of rows of a column. -/
def ArrowColumn.length : ArrowColumn → Nat
  | .int64 vs => vs.length
  | .float64 vs => vs.length
  | .utf8 vs => vs.length

/-- Record batch: a schema and one column per field. -/
structure RecordBatch where
  schema : List ArrowField
  columns : List ArrowColumn
  deriving DecidableEq

/-- Model of `RecordBatch::try_new`: Arrow rejects a column count differing from the
field count, a column whose type differs from its field, and columns of unequal
length. -/
def recordBatchTryNew (schema : List ArrowField) (cols : List ArrowColumn) :
    Except AppError RecordBatch :=
  if schema.length == cols.length
      && (schema.zip cols).all (fun p => p.2.dataType == p.1.dataType)
      && cols.all (fun c => c.length == ((cols.head?.map ArrowColumn.length).getD 0))
  then .ok { schema := schema, columns := cols }
  else .error (.Database "Failed to create RecordBatch: invalid argument error")

/-- Schema inference of `json_to_record_batch` on one first-row value: integers map to
Int64, floats to Float64, strings to Utf8, booleans to Boolean, and anything else
(null, arrays, objects) defaults to Utf8. -/
def inferDataType : JVal → ArrowDataType
  | JVal.int _ => ArrowDataType.int64
  | JVal.float _ => ArrowDataType.float64
  | JVal.str _ => ArrowDataType.utf8
  | JVal.bool _ => ArrowDataType.boolean
  | _ => ArrowDataType.utf8

/-- Column construction of `json_to_record_batch` for one inferred field: Int64 fields
collect `as_i64` of each cell, Float64 fields `as_f64`, Utf8 fields `as_str`, and any
other field type (only Boolean can occur) collects the `to_string` rendering into a
string array. -/
def buildColumn (rows : List Json) (key : String) : ArrowDataType → ArrowColumn
  | ArrowDataType.int64 =>
    ArrowColumn.int64 (rows.map (fun row => (row.get key).bind JVal.asI64))
  | ArrowDataType.float64 =>
    ArrowColumn.float64 (rows.map (fun row => (row.get key).bind JVal.asF64))
  | ArrowDataType.utf8 =>
    ArrowColumn.utf8 (rows.map (fun row => (row.get key).bind JVal.asStr))
  | ArrowDataType.boolean =>
    ArrowColumn.utf8 (rows.map (fun row => (row.get key).map JVal.render))

/-- Embedding of `json_to_record_batch`: an empty row set becomes the empty batch, the
schema is inferred from the first row (which must be a JSON object), one column is
built per first-row field, and the batch is assembled through the Arrow validation of
`RecordBatch::try_new`. -/
def json_to_record_batch (rows : List Json) : Except AppError RecordBatch :=
  match rows with
  | [] => .ok { schema := [], columns := [] }
  | first :: _ =>
    match first.asObject with
    | Option.none => .error (.Database "Expected JSON object")
    | some fields0 =>
      recordBatchTryNew
        (fields0.map (fun kv => { name := kv.1, dataType := inferDataType kv.2, nullable := true }))
        (fields0.map (fun kv => buildColumn rows kv.1 (inferDataType kv.2)))

/-- Result of one executed sub-query, from the `SubQueryResult` struct. -/
structure SubQueryResult where
  connection_id : String
  database_type : String
  query : String
  rows : List Json
  execution_time_ms : Nat
  deriving DecidableEq

/-- Adapter capability consumed by the executor (spec section 6): the engine type and
the successful row sets per SQL text. Connection failures and timeouts are I/O level
outcomes outside this pure embedding, which follows the success path. -/
structure DatabaseAdapter where
  database_type : String
  run : String → List Json

/-- Embedded DataFusion engine as seen by the executor: given the registered relations
and the merge SQL, it yields the merged rows (after batch collection and the row-wise
JSON conversion). -/
abbrev MergeEngine := List (String × RecordBatch) → String → List Json

/-- Embedding of `execute_sub_queries_parallel`: despite its name, the source awaits
each adapter call in sequence; a missing adapter is a validation error, and elapsed
times are wall-clock I/O, fixed to zero here. -/
def execute_sub_queries_parallel (adapters : List (String × DatabaseAdapter)) :
    List SubQuery → Except AppError (List SubQueryResult)
  | [] => .ok []
  | sq :: rest =>
    match adapters.lookup sq.connection_id with
    | Option.none => .error (.Validation ("Adapter not found: " ++ sq.connection_id))
    | some a => do
      let more ← execute_sub_queries_parallel adapters rest
      pure
        ({ connection_id := sq.connection_id
           database_type := a.database_type
           query := sq.query
           rows := a.run sq.query
           execution_time_ms := 0 } :: more)

/-- Embedding of `build_join_sql`: with no conditions or fewer than two tables the
degenerate single-table SELECT, otherwise a two-table inner join on the columns of the
first condition only. -/
def build_join_sql (conditions : List JoinCondition) (tableCount : Nat) : String :=
  match conditions with
  | [] => "SELECT * FROM table_0"
  | c :: _ =>
    if tableCount < 2 then "SELECT * FROM table_0"
    else
      "SELECT * FROM table_0 INNER JOIN table_1 ON table_0." ++ c.left_column ++
        " = table_1." ++ c.right_column

/-- Embedding of `build_cartesian_product_sql`. -/
def build_cartesian_product_sql (tableCount : Nat) : String :=
  if tableCount < 2 then "SELECT * FROM table_0"
  else
    (List.range (tableCount - 1)).foldl
      (fun sql i => sql ++ ", table_" ++ toString (i + 1)) "SELECT * FROM table_0"

/-- Registration loop of `merge_with_join`: a sub-result with no rows is skipped with a
warning (its table is never registered), the others are converted to record batches and
registered as `table_<index>`, the index counting every sub-result. -/
def registerJoinTables : List SubQueryResult → Nat →
    Except AppError (List (String × RecordBatch))
  | [], _ => .ok []
  | r :: rest, idx =>
    if r.rows.isEmpty then registerJoinTables rest (idx + 1)
    else do
      let batch ← json_to_record_batch r.rows
      let more ← registerJoinTables rest (idx + 1)
      pure (("table_" ++ toString idx, batch) :: more)

/-- Embedding of `merge_with_join`: requires at least two sub-results, registers the
non-empty ones, builds the join SQL (first condition only, Cartesian product when no
conditions), runs it on the embedded engine, and takes the first `limit_value` rows
when the limit is requested (`df.limit(0, Some(n))` before collection). -/
def merge_with_join (engine : MergeEngine) (subResults : List SubQueryResult)
    (conditions : List JoinCondition) (applyLimit : Bool) (limitValue : Nat) :
    Except AppError (List Json) :=
  if subResults.length < 2 then
    .error (.Validation "JOIN requires at least 2 sub-queries")
  else do
    let tables ← registerJoinTables subResults 0
    let joinSql :=
      if !conditions.isEmpty then build_join_sql conditions subResults.length
      else build_cartesian_product_sql subResults.length
    let rows := engine tables joinSql
    pure (if applyLimit then rows.take limitValue else rows)

/-- Registration loop of `merge_with_union`: every sub-result is converted (an empty
one becomes the empty batch) and registered as `temp_table_<index>`. -/
def registerUnionTables : List SubQueryResult → Nat →
    Except AppError (List (String × RecordBatch))
  | [], _ => .ok []
  | r :: rest, idx => do
    let batch ← json_to_record_batch r.rows
    let more ← registerUnionTables rest (idx + 1)
    pure (("temp_table_" ++ toString idx, batch) :: more)

/-- Embedding of `merge_with_union`: registers every sub-result, joins the per-table
SELECT statements with UNION or UNION ALL, runs the result on the embedded engine, and
takes the first `limit_value` rows when the limit is requested. -/
def merge_with_union (engine : MergeEngine) (subResults : List SubQueryResult)
    (all : Bool) (applyLimit : Bool) (limitValue : Nat) : Except AppError (List Json) := do
  let tables ← registerUnionTables subResults 0
  let selects := tables.map (fun t => "SELECT * FROM " ++ t.1)
  let unionQuery := String.intercalate (if all then " UNION ALL " else " UNION ") selects
  let rows := engine tables unionQuery
  pure (if applyLimit then rows.take limitValue else rows)

/-- Embedding of `execute_cross_database_query`: checks that every sub-query has an
adapter, executes the sub-queries, merges by strategy (a `None` strategy returns the
rows of the first sub-result unchanged), and assembles the response whose
`limit_applied` field is the `apply_limit` flag of the plan. Wall-clock elapsed times
are I/O and fixed to zero. -/
def execute_cross_database_query (engine : MergeEngine)
    (plan : CrossDatabaseExecutionPlan) (adapters : List (String × DatabaseAdapter)) :
    Except AppError CrossDatabaseQueryResponse :=
  match plan.sub_queries.find? (fun sq => (adapters.lookup sq.connection_id).isNone) with
  | some sq => .error (.Validation ("No adapter found for connection: " ++ sq.connection_id))
  | Option.none => do
    let subResults ← execute_sub_queries_parallel adapters plan.sub_queries
    let merged ←
      match plan.merge_strategy with
      | MergeStrategy.none =>
        pure (match subResults with
              | [] => []
              | r :: _ => r.rows)
      | MergeStrategy.innerJoin conditions =>
        merge_with_join engine subResults conditions plan.apply_limit plan.limit_value
      | MergeStrategy.leftJoin conditions =>
        merge_with_join engine subResults conditions plan.apply_limit plan.limit_value
      | MergeStrategy.union all =>
        merge_with_union engine subResults all plan.apply_limit plan.limit_value
    pure
      { original_query := plan.original_query
        sub_queries := subResults.map (fun r =>
          { connection_id := r.connection_id
            database_type := r.database_type
            query := r.query
            row_count := r.rows.length
            execution_time_ms := r.execution_time_ms })
        merged_rows := merged
        execution_time_ms := 0
        limit_applied := plan.apply_limit }

deriving instance DecidableEq for Except

/-! ### Claim theorems -/

/-- Request of the spec example join query, planned against conn1 and conn2. -/
def specJoinRequest : CrossDatabaseQueryRequest :=
  { query := "SELECT u.id, t.title FROM conn1.users u JOIN conn2.todos t ON u.id = t.user_id"
    connection_ids := ["conn1", "conn2"]
    database_aliases := Option.none
    timeout_secs := Option.none
    apply_limit := Option.none
    limit_value := Option.none }

/-- Parse result of the spec example join query under sqlparser. -/
def specJoinStatements : List Statement :=
  [Statement.query ⟨SetExpr.select
    { fromClause :=
        [{ relation := TableFactor.table ["conn1", "users"] (some "u")
           joins :=
             [{ relation := TableFactor.table ["conn2", "todos"] (some "t")
                joinOperator := JoinOperator.inner (JoinConstraint.onExpr
                  (SqlExpr.binaryOp (SqlExpr.compoundIdentifier ["u", "id"])
                    BinaryOperator.eq (SqlExpr.compoundIdentifier ["t", "user_id"]))) }] }]
      text := "SELECT u.id, t.title FROM conn1.users u JOIN conn2.todos t ON u.id = t.user_id" }⟩]

/-- C1: planning the spec join query against conn1 and conn2 returns exactly 2 SubQuery
entries and an InnerJoin strategy with exactly one JoinCondition, but the condition
carries the raw ON-clause aliases u and t with columns id and user_id: the relation
aliases are NOT resolved to the table names users and todos claimed by the spec,
because `extract_join_conditions` builds its alias map keyed by table name while
`extract_table_column` probes it with the alias, so the lookup always misses and falls
back to the alias itself. -/
theorem C1_join_plan_spec_query_behavior :
    (CrossDatabaseQueryPlanner.plan_query ⟨[("conn1", "conn1"), ("conn2", "conn2")]⟩
        specJoinRequest specJoinStatements).map
      (fun p => (p.sub_queries.length, p.merge_strategy)) =
    .ok (2, MergeStrategy.innerJoin
      [{ left_alias := "u", left_column := "id"
         right_alias := "t", right_column := "user_id" }]) ∧
    MergeStrategy.innerJoin
      [{ left_alias := "u", left_column := "id"
         right_alias := "t", right_column := "user_id" }] ≠
    MergeStrategy.innerJoin
      [{ left_alias := "users", left_column := "id"
         right_alias := "todos", right_column := "user_id" }] := by
  constructor
  · decide
  · decide

/-- Request of a plain (distinct) UNION of two single-table SELECT fragments against
two different connections. -/
def unionDistinctRequest : CrossDatabaseQueryRequest :=
  { query := "SELECT id FROM conn1.users UNION SELECT id FROM conn2.todos"
    connection_ids := ["conn1", "conn2"]
    database_aliases := Option.none
    timeout_secs := Option.none
    apply_limit := Option.none
    limit_value := Option.none }

/-- Parse result of the plain UNION query: the set operation node carries the Union
operator with the quantifier flag false (no ALL). -/
def unionDistinctStatements : List Statement :=
  [Statement.query ⟨SetExpr.setOperation SetOperator.union false
    (SetExpr.select
      { fromClause := [{ relation := TableFactor.table ["conn1", "users"] Option.none, joins := [] }]
        text := "SELECT id FROM conn1.users" })
    (SetExpr.select
      { fromClause := [{ relation := TableFactor.table ["conn2", "todos"] Option.none, joins := [] }]
        text := "SELECT id FROM conn2.todos" })⟩]

/-- C2: planning a plain (distinct) UNION of two single-table SELECT fragments against
two different connections yields 2 SubQuery entries but the strategy
`Union { all := true }`, not the `Union { all := false }` the spec requires: the source
computes `is_union_all` as `matches!(op, SetOperator::Union)`, which holds for every
UNION regardless of the ALL quantifier, so plain UNION is also flagged as UNION ALL. -/
theorem C2_union_distinct_flag_behavior :
    (CrossDatabaseQueryPlanner.plan_query ⟨[("conn1", "conn1"), ("conn2", "conn2")]⟩
        unionDistinctRequest unionDistinctStatements).map
      (fun p => (p.sub_queries.length, p.merge_strategy)) =
    .ok (2, MergeStrategy.union true) ∧
    MergeStrategy.union true ≠ MergeStrategy.union false := by
  constructor
  · decide
  · decide

/-- C3 counterexample: a non-empty row set whose first row holds a boolean value makes
`json_to_record_batch` fail instead of passing the boolean through: the schema field is
inferred as Boolean but the column is built as a string array (the construction match
has no Boolean arm), so the Arrow batch validation rejects the mismatch. -/
theorem C3_boolean_column_errors :
    json_to_record_batch [Json.obj [("b", JVal.bool true)]] =
      .error (.Database "Failed to create RecordBatch: invalid argument error") := by
  decide

/-- C7 counterexample: an INTERVAL literal outside the six hard-coded patterns is not
rewritten: translating a query with INTERVAL of 2 days leaves the quoted literal in the
output and produces no MySQL-style INTERVAL 2 DAY, refuting the claim that every
INTERVAL literal is rewritten. -/
theorem C7_interval_two_days_not_rewritten :
    strContainsSub
      (mysql_translate "SELECT * FROM t WHERE a >= CURRENT_DATE - INTERVAL \x272 days\x27")
      "INTERVAL \x272 days\x27" = true ∧
    strContainsSub
      (mysql_translate "SELECT * FROM t WHERE a >= CURRENT_DATE - INTERVAL \x272 days\x27")
      "INTERVAL 2 DAY" = false := by
  constructor
  · decide
  · decide

/-- Helper: the empty pattern is contained in every subject. -/
theorem listContainsSub_nil_pat (s : List Char) : listContainsSub s [] = true := by
  cases s <;> simp [listContainsSub, List.isPrefixOf]

/-- Helper: a list is a prefix of itself followed by anything. -/
theorem isPrefixOf_append_self (l t : List Char) : l.isPrefixOf (l ++ t) = true := by
  induction l with
  | nil => simp [List.isPrefixOf]
  | cons a l ih => simp [List.isPrefixOf, ih]

/-- Helper: a list is contained in itself followed by anything. -/
theorem listContainsSub_append_self (l t : List Char) : listContainsSub (l ++ t) l = true := by
  cases l with
  | nil => exact listContainsSub_nil_pat t
  | cons a l2 => simp [listContainsSub, isPrefixOf_append_self]

/-- Helper: the replacement loop is the identity when the pattern never occurs. -/
theorem replaceAllAux_id (pat rep : List Char) :
    ∀ n s, listContainsSub s pat = false → replaceAllAux pat rep n s = s := by
  intro n
  induction n with
  | zero => intro s h; rfl
  | succ n ih =>
    intro s h
    cases s with
    | nil => rfl
    | cons c rest =>
      simp only [listContainsSub, Bool.or_eq_false_iff] at h
      unfold replaceAllAux
      rw [h.1]
      simp [ih rest h.2]

/-- Helper: Rust replace is the identity when the pattern never occurs. -/
theorem rustReplace_id (s pat rep : String) (h : strContainsSub s pat = false) :
    rustReplace s pat rep = s := by
  unfold rustReplace
  rw [replaceAllAux_id pat.data rep.data s.data.length s.data h]

/-- Helper: when the non-empty pattern occurs, the replacement output contains the
replacement text. -/
theorem replaceAllAux_contains (pat rep : List Char) (hp : pat ≠ []) :
    ∀ n s, s.length ≤ n → listContainsSub s pat = true →
      listContainsSub (replaceAllAux pat rep n s) rep = true := by
  intro n
  induction n with
  | zero =>
    intro s hlen hc
    have hs : s = [] := List.length_eq_zero.mp (Nat.le_zero.mp hlen)
    rw [hs] at hc
    simp only [listContainsSub] at hc
    exact absurd (List.isEmpty_iff.mp hc) hp
  | succ n ih =>
    intro s hlen hc
    cases s with
    | nil =>
      simp only [listContainsSub] at hc
      exact absurd (List.isEmpty_iff.mp hc) hp
    | cons c rest =>
      have hie : pat.isEmpty = false := by
        cases pat with
        | nil => exact absurd rfl hp
        | cons p ps => rfl
      cases hb : pat.isPrefixOf (c :: rest) with
      | true =>
        unfold replaceAllAux
        rw [hb, hie]
        simp only [Bool.not_false, Bool.and_self, if_pos]
        exact listContainsSub_append_self rep _
      | false =>
        simp only [listContainsSub, hb, Bool.false_or] at hc
        unfold replaceAllAux
        rw [hb]
        simp only [Bool.false_and, Bool.false_eq_true, if_false, listContainsSub]
        rw [ih rest (Nat.le_of_succ_le_succ hlen) hc]
        simp

/-- Helper: Rust replace of a non-empty occurring pattern puts the replacement text
into the output. -/
theorem rustReplace_contains (s pat rep : String) (hp : pat.data ≠ [])
    (hc : strContainsSub s pat = true) :
    strContainsSub (rustReplace s pat rep) rep = true :=
  replaceAllAux_contains pat.data rep.data hp s.data.length s.data (Nat.le_refl _) hc

/-- Helper: a subject not containing a one-character pattern holds no such character. -/
theorem not_mem_of_not_containsChar (s : List Char) (d : Char)
    (h : listContainsSub s [d] = false) : ∀ c ∈ s, c ≠ d := by
  induction s with
  | nil => intro c hc; exact absurd hc (List.not_mem_nil c)
  | cons c0 rest ih =>
    intro c hc
    simp only [listContainsSub, Bool.or_eq_false_iff] at h
    rcases List.mem_cons.mp hc with rfl | hmem
    · intro heq
      have := h.1
      simp [List.isPrefixOf, heq] at this
    · exact ih h.2 c hmem

/-- Helper: the identifier stage copies every input free of double quotes. -/
theorem translateIdentChars_id (s : List Char) :
    ∀ (inString inIdentifier : Bool), (∀ c ∈ s, c ≠ dquoteChar) →
      translateIdentChars s inString inIdentifier = s := by
  induction s with
  | nil => intro _ _ _; rfl
  | cons c rest ih =>
    intro inString inIdentifier h
    have ihA : ∀ a b : Bool, translateIdentChars rest a b = rest :=
      fun a b => ih a b (fun x hx => h x (List.mem_cons_of_mem _ hx))
    have hcne : c ≠ dquoteChar := h c (List.mem_cons_self _ _)
    unfold translateIdentChars
    by_cases hc : c = squoteChar
    · simp [hc, ihA]
    · simp [hc, hcne, ihA]

/-- Helper: the MySQL identifier translation is the identity on input free of double
quotes. -/
theorem mysql_translate_identifiers_id (sql : String)
    (h : strContainsSub sql "\x22" = false) : mysql_translate_identifiers sql = sql := by
  unfold mysql_translate_identifiers
  rw [translateIdentChars_id sql.data false false
    (not_mem_of_not_containsChar sql.data dquoteChar h)]

/-- Helper: the MySQL interval translation is the identity on input containing none of
its six hard-coded patterns, so every other INTERVAL literal is left unchanged. -/
theorem mysql_translate_interval_id (sql : String)
    (h1 : strContainsSub sql "INTERVAL \x271 day\x27" = false)
    (h2 : strContainsSub sql "INTERVAL \x277 days\x27" = false)
    (h3 : strContainsSub sql "INTERVAL \x2730 days\x27" = false)
    (h4 : strContainsSub sql "INTERVAL \x271 hour\x27" = false)
    (h5 : strContainsSub sql "INTERVAL \x271 month\x27" = false)
    (h6 : strContainsSub sql "INTERVAL \x271 year\x27" = false) :
    mysql_translate_interval sql = sql := by
  unfold mysql_translate_interval
  dsimp only
  rw [rustReplace_id _ _ _ h1, rustReplace_id _ _ _ h2, rustReplace_id _ _ _ h3,
    rustReplace_id _ _ _ h4, rustReplace_id _ _ _ h5, rustReplace_id _ _ _ h6]

/-- C7 amended: the MySQL translator rewrites exactly the six hard-coded INTERVAL
patterns (1 day, 7 days, 30 days, 1 hour, 1 month, 1 year) and is the identity on the
interval stage for input containing none of them, so every other INTERVAL literal is
left unchanged; it rewrites CURRENT_DATE to CURDATE() and CURRENT_TIMESTAMP to NOW()
(shown on the two-function query, and in general NOW() appears in the output of every
double-quote-free, six-pattern-free, CURRENT_DATE-free query containing
CURRENT_TIMESTAMP); it converts double-quoted identifiers to backticks; and on the spec
example the output is exactly the expected MySQL text, containing backtick-quoted
identifiers, INTERVAL 7 DAY and CURDATE(). -/
theorem C7_mysql_translation_example :
    mysql_translate
        "SELECT \"id\" FROM \"users\" WHERE created_at >= CURRENT_DATE - INTERVAL \x277 days\x27" =
      "SELECT \x60id\x60 FROM \x60users\x60 WHERE created_at >= CURDATE() - INTERVAL 7 DAY" ∧
    strContainsSub
      (mysql_translate
        "SELECT \"id\" FROM \"users\" WHERE created_at >= CURRENT_DATE - INTERVAL \x277 days\x27")
      "\x60id\x60" = true ∧
    strContainsSub
      (mysql_translate
        "SELECT \"id\" FROM \"users\" WHERE created_at >= CURRENT_DATE - INTERVAL \x277 days\x27")
      "INTERVAL 7 DAY" = true ∧
    strContainsSub
      (mysql_translate
        "SELECT \"id\" FROM \"users\" WHERE created_at >= CURRENT_DATE - INTERVAL \x277 days\x27")
      "CURDATE()" = true ∧
    mysql_translate_interval "INTERVAL \x271 day\x27" = "INTERVAL 1 DAY" ∧
    mysql_translate_interval "INTERVAL \x277 days\x27" = "INTERVAL 7 DAY" ∧
    mysql_translate_interval "INTERVAL \x2730 days\x27" = "INTERVAL 30 DAY" ∧
    mysql_translate_interval "INTERVAL \x271 hour\x27" = "INTERVAL 1 HOUR" ∧
    mysql_translate_interval "INTERVAL \x271 month\x27" = "INTERVAL 1 MONTH" ∧
    mysql_translate_interval "INTERVAL \x271 year\x27" = "INTERVAL 1 YEAR" ∧
    mysql_translate "SELECT CURRENT_DATE, CURRENT_TIMESTAMP FROM dual" =
      "SELECT CURDATE(), NOW() FROM dual" ∧
    (∀ sql, strContainsSub sql "INTERVAL \x271 day\x27" = false →
      strContainsSub sql "INTERVAL \x277 days\x27" = false →
      strContainsSub sql "INTERVAL \x2730 days\x27" = false →
      strContainsSub sql "INTERVAL \x271 hour\x27" = false →
      strContainsSub sql "INTERVAL \x271 month\x27" = false →
      strContainsSub sql "INTERVAL \x271 year\x27" = false →
      mysql_translate_interval sql = sql) ∧
    (∀ sql, strContainsSub sql "\x22" = false →
      strContainsSub sql "INTERVAL \x271 day\x27" = false →
      strContainsSub sql "INTERVAL \x277 days\x27" = false →
      strContainsSub sql "INTERVAL \x2730 days\x27" = false →
      strContainsSub sql "INTERVAL \x271 hour\x27" = false →
      strContainsSub sql "INTERVAL \x271 month\x27" = false →
      strContainsSub sql "INTERVAL \x271 year\x27" = false →
      strContainsSub sql "CURRENT_DATE" = false →
      strContainsSub sql "CURRENT_TIMESTAMP" = true →
      strContainsSub (mysql_translate sql) "NOW()" = true) := by
  refine ⟨by decide, by decide, by decide, by decide, by decide, by decide, by decide,
    by decide, by decide, by decide, by decide, ?_, ?_⟩
  · intro sql h1 h2 h3 h4 h5 h6
    exact mysql_translate_interval_id sql h1 h2 h3 h4 h5 h6
  · intro sql hdq h1 h2 h3 h4 h5 h6 hcd hct
    unfold mysql_translate
    rw [mysql_translate_identifiers_id sql hdq,
      mysql_translate_interval_id sql h1 h2 h3 h4 h5 h6]
    unfold mysql_translate_date_functions
    rw [rustReplace_id sql _ _ hcd]
    exact rustReplace_contains sql "CURRENT_TIMESTAMP" "NOW()" (by decide) hct

/-- C7 witness: the two universal parts of the amended theorem exercised at a concrete
query containing CURRENT_TIMESTAMP and an INTERVAL literal outside the six patterns. -/
theorem C7_mysql_translation_example_witness :
    mysql_translate_interval
        "SELECT * FROM t WHERE a >= CURRENT_TIMESTAMP - INTERVAL \x273 days\x27" =
      "SELECT * FROM t WHERE a >= CURRENT_TIMESTAMP - INTERVAL \x273 days\x27" ∧
    strContainsSub
      (mysql_translate
        "SELECT * FROM t WHERE a >= CURRENT_TIMESTAMP - INTERVAL \x273 days\x27")
      "NOW()" = true := by
  obtain ⟨-, -, -, -, -, -, -, -, -, -, -, hIntervalId, hNow⟩ := C7_mysql_translation_example
  exact ⟨hIntervalId _ (by decide) (by decide) (by decide) (by decide) (by decide) (by decide),
    hNow _ (by decide) (by decide) (by decide) (by decide) (by decide) (by decide)
      (by decide) (by decide) (by decide)⟩

/-- C8: the generic (pass-through) translator returns every input unchanged, and is
therefore idempotent: running its output through the translator again gives the same
result. -/
theorem C8_generic_translator_identity (s : String) :
    generic_translate s = .ok s ∧
    (generic_translate s).bind generic_translate = generic_translate s :=
  ⟨rfl, rfl⟩

/-- C8 witness: the pass-through identity at a concrete input. -/
theorem C8_generic_translator_identity_witness :
    generic_translate "SELECT * FROM t" = .ok "SELECT * FROM t" ∧
    (generic_translate "SELECT * FROM t").bind generic_translate =
      generic_translate "SELECT * FROM t" :=
  C8_generic_translator_identity "SELECT * FROM t"

/-- C4: for every unqualified single-table SELECT planned against a non-empty alias
map, planning succeeds with exactly one SubQuery assigned to the connection ID of the
first alias-map entry, and the merge strategy None. -/
theorem C4_unqualified_single_table (k v : String) (rest : List (String × String))
    (req : CrossDatabaseQueryRequest) (t : String) (a : Option String) (txt : String)
    (hval : req.validate = .ok ()) :
    ∃ p, CrossDatabaseQueryPlanner.plan_query ⟨(k, v) :: rest⟩ req
        [Statement.query ⟨SetExpr.select
          { fromClause := [{ relation := TableFactor.table [t] a, joins := [] }]
            text := txt }⟩] = .ok p ∧
      p.sub_queries.length = 1 ∧
      p.merge_strategy = MergeStrategy.none ∧
      ∀ sq ∈ p.sub_queries, sq.connection_id = v := by
  have hplan : CrossDatabaseQueryPlanner.plan_query ⟨(k, v) :: rest⟩ req
      [Statement.query ⟨SetExpr.select
        { fromClause := [{ relation := TableFactor.table [t] a, joins := [] }]
          text := txt }⟩] =
      .ok
        { original_query := req.query
          sub_queries :=
            [{ connection_id := v
               database_type := "unknown"
               query := CrossDatabaseQueryPlanner.strip_qualifiers ⟨(k, v) :: rest⟩ req.query
               tables := [t]
               result_alias := "result" }]
          merge_strategy := MergeStrategy.none
          timeout_secs := req.timeout_secs.getD 60
          apply_limit := req.apply_limit.getD true
          limit_value := req.limit_value.getD 1000 } := by
    simp [CrossDatabaseQueryPlanner.plan_query, hval,
      CrossDatabaseQueryPlanner.plan_select_query,
      CrossDatabaseQueryPlanner.extract_tables,
      CrossDatabaseQueryPlanner.selectFactors,
      CrossDatabaseQueryPlanner.extractFactors,
      CrossDatabaseQueryPlanner.parse_table_name,
      CrossDatabaseQueryPlanner.identify_databases,
      CrossDatabaseQueryPlanner.identifyGo,
      CrossDatabaseQueryPlanner.insertTable,
      CrossDatabaseQueryPlanner.plan_single_database_query,
      List.lookup, bind, Except.bind, pure, Except.pure, beq_self_eq_true]
  refine ⟨_, hplan, rfl, rfl, ?_⟩
  intro sq hsq
  simp at hsq
  rw [hsq]

/-- Request used by the C4 witness. -/
def c4WitnessRequest : CrossDatabaseQueryRequest :=
  { query := "SELECT * FROM users"
    connection_ids := ["id-1"]
    database_aliases := Option.none
    timeout_secs := Option.none
    apply_limit := Option.none
    limit_value := Option.none }

/-- C4 witness: the general theorem applied to a concrete unqualified single-table
SELECT against the alias map mapping db1 to id-1. -/
theorem C4_unqualified_single_table_witness :
    c4WitnessRequest.validate = .ok () ∧
    ∃ p, CrossDatabaseQueryPlanner.plan_query ⟨[("db1", "id-1")]⟩ c4WitnessRequest
        [Statement.query ⟨SetExpr.select
          { fromClause := [{ relation := TableFactor.table ["users"] Option.none, joins := [] }]
            text := "SELECT * FROM users" }⟩] = .ok p ∧
      p.sub_queries.length = 1 ∧
      p.merge_strategy = MergeStrategy.none ∧
      ∀ sq ∈ p.sub_queries, sq.connection_id = "id-1" :=
  ⟨by decide,
    C4_unqualified_single_table "db1" "id-1" [] c4WitnessRequest "users" Option.none
      "SELECT * FROM users" (by decide)⟩

/-- C10: for a plan with merge strategy None and its sole sub-query, the executor
returns the rows of that sub-query completely untruncated (no limit is ever applied on
this path, whatever the apply_limit flag and limit_value say), while the limit_applied
field of the response still equals the apply_limit flag of the plan. -/
theorem C10_none_strategy_untruncated (engine : MergeEngine)
    (plan : CrossDatabaseExecutionPlan) (adapters : List (String × DatabaseAdapter))
    (sq : SubQuery) (ad : DatabaseAdapter) (resp : CrossDatabaseQueryResponse)
    (hsub : plan.sub_queries = [sq])
    (hstrat : plan.merge_strategy = MergeStrategy.none)
    (had : adapters.lookup sq.connection_id = some ad)
    (hok : execute_cross_database_query engine plan adapters = .ok resp) :
    resp.merged_rows = ad.run sq.query ∧ resp.limit_applied = plan.apply_limit := by
  unfold execute_cross_database_query at hok
  rw [hsub, hstrat] at hok
  simp [execute_sub_queries_parallel, had, List.find?, bind, Except.bind, pure,
    Except.pure] at hok
  rw [← hok]
  exact ⟨rfl, rfl⟩

/-- Adapter returning five fixed rows, used by the C10 witness. -/
def c10Adapter : DatabaseAdapter :=
  { database_type := "postgresql"
    run := fun _ =>
      [Json.obj [("id", JVal.int 1)], Json.obj [("id", JVal.int 2)],
       Json.obj [("id", JVal.int 3)], Json.obj [("id", JVal.int 4)],
       Json.obj [("id", JVal.int 5)]] }

/-- Plan with strategy None, apply_limit true and limit_value 1, used by the C10
witness: its sole sub-query returns five rows, all of which come back. -/
def c10Plan : CrossDatabaseExecutionPlan :=
  { original_query := "SELECT * FROM conn1.users"
    sub_queries :=
      [{ connection_id := "conn1"
         database_type := "unknown"
         query := "SELECT * FROM users"
         tables := ["users"]
         result_alias := "result" }]
    merge_strategy := MergeStrategy.none
    timeout_secs := 60
    apply_limit := true
    limit_value := 1 }

/-- C10 witness: the general theorem applied to a concrete None-strategy plan whose
sub-query yields 5 rows while limit_value is 1; all 5 rows come back and limit_applied
is true. -/
theorem C10_none_strategy_untruncated_witness :
    ∃ resp, execute_cross_database_query (fun _ _ => []) c10Plan [("conn1", c10Adapter)] =
        .ok resp ∧
      resp.merged_rows = c10Adapter.run "SELECT * FROM users" ∧
      resp.merged_rows.length = 5 ∧
      resp.limit_applied = true := by
  cases hok : execute_cross_database_query (fun _ _ => []) c10Plan [("conn1", c10Adapter)] with
  | error e =>
    have hOk : (execute_cross_database_query (fun _ _ => []) c10Plan
        [("conn1", c10Adapter)]).isOk = true := by decide
    rw [hok] at hOk
    simp [Except.isOk, Except.toBool] at hOk
  | ok resp =>
    have h := C10_none_strategy_untruncated (fun _ _ => []) c10Plan [("conn1", c10Adapter)]
      { connection_id := "conn1"
        database_type := "unknown"
        query := "SELECT * FROM users"
        tables := ["users"]
        result_alias := "result" }
      c10Adapter resp rfl rfl rfl hok
    exact ⟨resp, rfl, h.1, by rw [h.1]; rfl, h.2⟩

/-- Helper: a successful join merge with the limit requested at value one returns the
first row of whatever the embedded engine produced. -/
theorem merge_with_join_take (engine : MergeEngine) (subResults : List SubQueryResult)
    (conditions : List JoinCondition) (limitValue : Nat) (out : List Json)
    (h : merge_with_join engine subResults conditions true limitValue = .ok out) :
    ∃ tables sql, out = (engine tables sql).take limitValue := by
  unfold merge_with_join at h
  split at h
  · exact absurd h (by simp)
  · simp only [bind, Except.bind] at h
    cases hreg : registerJoinTables subResults 0 with
    | error e => rw [hreg] at h; exact absurd h (by simp)
    | ok tables =>
      rw [hreg] at h
      simp only [pure, Except.pure, if_pos, Except.ok.injEq] at h
      exact ⟨tables, _, h.symm⟩

/-- Helper: a successful union merge with the limit requested returns the first rows of
whatever the embedded engine produced. -/
theorem merge_with_union_take (engine : MergeEngine) (subResults : List SubQueryResult)
    (all : Bool) (limitValue : Nat) (out : List Json)
    (h : merge_with_union engine subResults all true limitValue = .ok out) :
    ∃ tables sql, out = (engine tables sql).take limitValue := by
  unfold merge_with_union at h
  simp only [bind, Except.bind] at h
  cases hreg : registerUnionTables subResults 0 with
  | error e => rw [hreg] at h; exact absurd h (by simp)
  | ok tables =>
    rw [hreg] at h
    simp only [pure, Except.pure, if_pos, Except.ok.injEq] at h
    exact ⟨tables, _, h.symm⟩

/-- Helper: shape of every successful executor run: the sub-queries were executed, the
limit_applied field copies the plan flag, and the merged rows come from the merge of
the plan strategy. -/
theorem execute_ok_shape (engine : MergeEngine) (plan : CrossDatabaseExecutionPlan)
    (adapters : List (String × DatabaseAdapter)) (resp : CrossDatabaseQueryResponse)
    (h : execute_cross_database_query engine plan adapters = .ok resp) :
    ∃ subResults,
      execute_sub_queries_parallel adapters plan.sub_queries = .ok subResults ∧
      resp.limit_applied = plan.apply_limit ∧
      ((plan.merge_strategy = MergeStrategy.none ∧
          resp.merged_rows = (match subResults with | [] => [] | r :: _ => r.rows)) ∨
        (∃ conds,
          (plan.merge_strategy = MergeStrategy.innerJoin conds ∨
            plan.merge_strategy = MergeStrategy.leftJoin conds) ∧
          merge_with_join engine subResults conds plan.apply_limit plan.limit_value =
            .ok resp.merged_rows) ∨
        (∃ allb, plan.merge_strategy = MergeStrategy.union allb ∧
          merge_with_union engine subResults allb plan.apply_limit plan.limit_value =
            .ok resp.merged_rows)) := by
  unfold execute_cross_database_query at h
  cases hfind : plan.sub_queries.find? (fun sq => (adapters.lookup sq.connection_id).isNone) with
  | some sq => rw [hfind] at h; exact absurd h (by simp)
  | none =>
    rw [hfind] at h
    simp only [bind, Except.bind] at h
    cases hsr : execute_sub_queries_parallel adapters plan.sub_queries with
    | error e => rw [hsr] at h; exact absurd h (by simp)
    | ok subResults =>
      rw [hsr] at h
      dsimp only at h
      refine ⟨subResults, rfl, ?_⟩
      cases hms : plan.merge_strategy with
      | none =>
        rw [hms] at h
        dsimp only at h
        simp only [pure, Except.pure, Except.ok.injEq] at h
        rw [← h]
        exact ⟨rfl, Or.inl ⟨rfl, rfl⟩⟩
      | innerJoin conds =>
        rw [hms] at h
        dsimp only at h
        cases hm : merge_with_join engine subResults conds plan.apply_limit plan.limit_value with
        | error e => rw [hm] at h; exact absurd h (by simp)
        | ok merged =>
          rw [hm] at h
          simp only [pure, Except.pure, Except.ok.injEq] at h
          rw [← h]
          exact ⟨rfl, Or.inr (Or.inl ⟨conds, Or.inl rfl, hm⟩)⟩
      | leftJoin conds =>
        rw [hms] at h
        dsimp only at h
        cases hm : merge_with_join engine subResults conds plan.apply_limit plan.limit_value with
        | error e => rw [hm] at h; exact absurd h (by simp)
        | ok merged =>
          rw [hm] at h
          simp only [pure, Except.pure, Except.ok.injEq] at h
          rw [← h]
          exact ⟨rfl, Or.inr (Or.inl ⟨conds, Or.inr rfl, hm⟩)⟩
      | union allb =>
        rw [hms] at h
        dsimp only at h
        cases hm : merge_with_union engine subResults allb plan.apply_limit plan.limit_value with
        | error e => rw [hm] at h; exact absurd h (by simp)
        | ok merged =>
          rw [hm] at h
          simp only [pure, Except.pure, Except.ok.injEq] at h
          rw [← h]
          exact ⟨rfl, Or.inr (Or.inr ⟨allb, rfl, hm⟩)⟩

/-- C5: whenever the executor succeeds on a plan with apply_limit true and limit_value
one whose merge step (join or union, i.e. any strategy other than None) produces 5
rows in the embedded engine, the response holds exactly 1 merged row and its
limit_applied field is true. -/
theorem C5_limit_enforcement (engine : MergeEngine) (plan : CrossDatabaseExecutionPlan)
    (adapters : List (String × DatabaseAdapter)) (resp : CrossDatabaseQueryResponse)
    (hok : execute_cross_database_query engine plan adapters = .ok resp)
    (hrows : ∀ tables sql, (engine tables sql).length = 5)
    (hstrat : plan.merge_strategy ≠ MergeStrategy.none)
    (hlim : plan.apply_limit = true)
    (hval : plan.limit_value = 1) :
    resp.merged_rows.length = 1 ∧ resp.limit_applied = true := by
  obtain ⟨subResults, -, happlied, hmerge⟩ := execute_ok_shape engine plan adapters resp hok
  refine ⟨?_, by rw [happlied, hlim]⟩
  rcases hmerge with ⟨hnone, -⟩ | ⟨conds, -, hm⟩ | ⟨allb, -, hm⟩
  · exact absurd hnone hstrat
  · rw [hlim, hval] at hm
    obtain ⟨tables, sql, hout⟩ := merge_with_join_take engine subResults conds 1
      resp.merged_rows hm
    rw [hout, List.length_take, hrows]
    decide
  · rw [hlim, hval] at hm
    obtain ⟨tables, sql, hout⟩ := merge_with_union_take engine subResults allb 1
      resp.merged_rows hm
    rw [hout, List.length_take, hrows]
    decide

/-- Engine stub for the C5 witness: every merge SQL produces the same five rows. -/
def c5Engine : MergeEngine := fun _ _ =>
  [Json.obj [("id", JVal.int 1)], Json.obj [("id", JVal.int 2)],
   Json.obj [("id", JVal.int 3)], Json.obj [("id", JVal.int 4)],
   Json.obj [("id", JVal.int 5)]]

/-- Join plan with apply_limit true and limit_value 1 for the C5 witness. -/
def c5Plan : CrossDatabaseExecutionPlan :=
  { original_query := "SELECT * FROM conn1.users u JOIN conn2.todos t ON u.id = t.user_id"
    sub_queries :=
      [{ connection_id := "conn1"
         database_type := "unknown"
         query := "SELECT * FROM users"
         tables := ["users"]
         result_alias := "u" },
       { connection_id := "conn2"
         database_type := "unknown"
         query := "SELECT * FROM todos"
         tables := ["todos"]
         result_alias := "t" }]
    merge_strategy := MergeStrategy.innerJoin
      [{ left_alias := "u", left_column := "id", right_alias := "t", right_column := "user_id" }]
    timeout_secs := 60
    apply_limit := true
    limit_value := 1 }

/-- Adapters for the C5 witness: each connection returns one integer row. -/
def c5Adapters : List (String × DatabaseAdapter) :=
  [("conn1", { database_type := "postgresql", run := fun _ => [Json.obj [("id", JVal.int 1)]] }),
   ("conn2", { database_type := "mysql", run := fun _ => [Json.obj [("user_id", JVal.int 1)]] })]

/-- C5 witness: the general theorem applied to a concrete join plan whose merge
produces 5 rows with apply_limit true and limit_value 1. -/
theorem C5_limit_enforcement_witness :
    ∃ resp, execute_cross_database_query c5Engine c5Plan c5Adapters = .ok resp ∧
      resp.merged_rows.length = 1 ∧ resp.limit_applied = true := by
  cases hok : execute_cross_database_query c5Engine c5Plan c5Adapters with
  | error e =>
    have hOk : (execute_cross_database_query c5Engine c5Plan c5Adapters).isOk = true := by
      decide
    rw [hok] at hOk
    simp [Except.isOk, Except.toBool] at hOk
  | ok resp =>
    exact ⟨resp, rfl,
      C5_limit_enforcement c5Engine c5Plan c5Adapters resp hok (fun _ _ => rfl)
        (by decide) rfl rfl⟩

/-- Helper: inserting a table into the grouping map never shrinks it. -/
theorem insertTable_length_le (m : List (String × List String)) (c t : String) :
    m.length ≤ (CrossDatabaseQueryPlanner.insertTable m c t).length := by
  induction m with
  | nil => simp [CrossDatabaseQueryPlanner.insertTable]
  | cons kv rest ih =>
    obtain ⟨k, ts⟩ := kv
    by_cases hk : k = c
    · simp [CrossDatabaseQueryPlanner.insertTable, hk]
    · simp [CrossDatabaseQueryPlanner.insertTable, hk]
      exact ih

/-- Helper: the grouping loop of identify_databases never shrinks its accumulator. -/
theorem identifyGo_length_le (self : CrossDatabaseQueryPlanner) (l : List TableEntry) :
    ∀ acc m, self.identifyGo acc l = .ok m → acc.length ≤ m.length := by
  induction l with
  | nil =>
    intro acc m h
    simp [CrossDatabaseQueryPlanner.identifyGo] at h
    rw [h]
  | cons e rest ih =>
    intro acc m h
    obtain ⟨q, a, t⟩ := e
    unfold CrossDatabaseQueryPlanner.identifyGo at h
    cases hq : self.connection_map.lookup q with
    | none => rw [hq] at h; exact absurd h (by simp)
    | some conn =>
      rw [hq] at h
      exact Nat.le_trans (insertTable_length_le acc conn t) (ih _ m h)

/-- Helper: a successful single-database plan has strategy None and one sub-query. -/
theorem plan_single_shape (self : CrossDatabaseQueryPlanner) (tables : List TableEntry)
    (req : CrossDatabaseQueryRequest) (p : CrossDatabaseExecutionPlan)
    (h : self.plan_single_database_query tables req = .ok p) :
    p.merge_strategy = MergeStrategy.none ∧ p.sub_queries.length = 1 := by
  unfold CrossDatabaseQueryPlanner.plan_single_database_query at h
  cases tables with
  | nil => exact absurd h (by simp)
  | cons e rest =>
    obtain ⟨q, a, t⟩ := e
    dsimp only at h
    cases hq : self.connection_map.lookup q with
    | none => rw [hq] at h; exact absurd h (by simp)
    | some conn =>
      rw [hq] at h
      simp only [Except.ok.injEq] at h
      rw [← h]
      exact ⟨rfl, rfl⟩

/-- Helper: a successful join plan has an InnerJoin strategy and one sub-query per
entry of the grouping produced by identify_databases. -/
theorem plan_join_shape (self : CrossDatabaseQueryPlanner) (s : SelectAst)
    (tables : List TableEntry) (req : CrossDatabaseQueryRequest)
    (p : CrossDatabaseExecutionPlan) (h : self.plan_join_query s tables req = .ok p) :
    ∃ conds dbs, self.identify_databases tables = .ok dbs ∧
      p.merge_strategy = MergeStrategy.innerJoin conds ∧
      p.sub_queries.length = dbs.length := by
  unfold CrossDatabaseQueryPlanner.plan_join_query at h
  simp only [bind, Except.bind] at h
  cases hdb : self.identify_databases tables with
  | error e => rw [hdb] at h; exact absurd h (by simp)
  | ok dbs =>
    rw [hdb] at h
    dsimp only at h
    simp only [pure, Except.pure, Except.ok.injEq] at h
    rw [← h]
    exact ⟨_, dbs, rfl, rfl, by simp⟩

/-- Helper: a successful union plan has a Union strategy. -/
theorem plan_union_shape (self : CrossDatabaseQueryPlanner) (body : SetExpr)
    (req : CrossDatabaseQueryRequest) (op : SetOperator) (p : CrossDatabaseExecutionPlan)
    (h : self.plan_union_query body req op = .ok p) :
    ∃ b, p.merge_strategy = MergeStrategy.union b := by
  unfold CrossDatabaseQueryPlanner.plan_union_query at h
  simp only [bind, Except.bind] at h
  cases hsel : CrossDatabaseQueryPlanner.extract_union_selects body with
  | error e => rw [hsel] at h; exact absurd h (by simp)
  | ok selects =>
    rw [hsel] at h
    dsimp only at h
    cases hbu : self.buildUnionSubQueries selects 0 with
    | error e => rw [hbu] at h; exact absurd h (by simp)
    | ok subs =>
      rw [hbu] at h
      dsimp only at h
      split at h
      · exact absurd h (by simp)
      · simp only [pure, Except.pure, Except.ok.injEq] at h
        exact ⟨_, by rw [← h]⟩

/-- C9: invariant of every plan the planner produces: a join strategy comes with at
least two SubQuery entries, and strategy None comes with exactly one SubQuery. -/
theorem C9_plan_invariant (planner : CrossDatabaseQueryPlanner)
    (req : CrossDatabaseQueryRequest) (stmts : List Statement)
    (p : CrossDatabaseExecutionPlan) (h : planner.plan_query req stmts = .ok p) :
    (p.merge_strategy.isJoin → 2 ≤ p.sub_queries.length) ∧
    (p.merge_strategy = MergeStrategy.none → p.sub_queries.length = 1) := by
  unfold CrossDatabaseQueryPlanner.plan_query at h
  cases hv : req.validate with
  | error e => rw [hv] at h; exact absurd h (by simp)
  | ok u =>
    rw [hv] at h
    dsimp only at h
    cases stmts with
    | nil => exact absurd h (by simp)
    | cons st rest =>
      cases st with
      | otherStatement => exact absurd h (by simp)
      | query q =>
        dsimp only at h
        unfold CrossDatabaseQueryPlanner.plan_select_query at h
        cases hb : q.body with
        | valuesExpr => rw [hb] at h; exact absurd h (by simp)
        | query inner => rw [hb] at h; exact absurd h (by simp)
        | setOperation op isAll l r =>
          rw [hb] at h
          obtain ⟨b, hsu⟩ := plan_union_shape planner _ req op p h
          constructor
          · intro hj
            rw [hsu] at hj
            exact absurd hj (by simp [MergeStrategy.isJoin])
          · intro hn
            rw [hsu] at hn
            exact absurd hn (by simp)
        | select s =>
          rw [hb] at h
          simp only [bind, Except.bind] at h
          cases hts : planner.extract_tables s with
          | error e => rw [hts] at h; exact absurd h (by simp)
          | ok tables =>
            rw [hts] at h
            dsimp only at h
            split at h
            next hemp => exact absurd h (by simp)
            next hemp =>
              cases hdb : planner.identify_databases tables with
              | error e => rw [hdb] at h; exact absurd h (by simp)
              | ok dbs =>
                rw [hdb] at h
                dsimp only at h
                split at h
                next heq1 =>
                  obtain ⟨hms, hlen⟩ := plan_single_shape planner tables req p h
                  constructor
                  · intro hj
                    rw [hms] at hj
                    exact absurd hj (by simp [MergeStrategy.isJoin])
                  · intro _
                    exact hlen
                next hne1 =>
                  obtain ⟨conds, dbs2, hdb2, hms, hlen⟩ :=
                    plan_join_shape planner s tables req p h
                  rw [hdb] at hdb2
                  injection hdb2 with hdbs
                  constructor
                  · intro _
                    rw [hlen, ← hdbs]
                    have h1 : 1 ≤ dbs.length := by
                      cases tables with
                      | nil => simp at hemp
                      | cons e rest2 =>
                        obtain ⟨q, a, t⟩ := e
                        unfold CrossDatabaseQueryPlanner.identify_databases
                          CrossDatabaseQueryPlanner.identifyGo at hdb
                        cases hq : planner.connection_map.lookup q with
                        | none => rw [hq] at hdb; exact absurd hdb (by simp)
                        | some conn =>
                          rw [hq] at hdb
                          have := identifyGo_length_le planner rest2 _ dbs hdb
                          calc 1 = (CrossDatabaseQueryPlanner.insertTable [] conn t).length := by
                                simp [CrossDatabaseQueryPlanner.insertTable]
                            _ ≤ dbs.length := this
                    simp only [beq_iff_eq] at hne1
                    omega
                  · intro hn
                    rw [hms] at hn
                    exact absurd hn (by simp)

/-- Request used by the C9 witness. -/
def c9Request : CrossDatabaseQueryRequest :=
  { query := "SELECT * FROM users"
    connection_ids := ["id-9"]
    database_aliases := Option.none
    timeout_secs := Option.none
    apply_limit := Option.none
    limit_value := Option.none }

/-- Parse result used by the C9 witness. -/
def c9Statements : List Statement :=
  [Statement.query ⟨SetExpr.select
    { fromClause := [{ relation := TableFactor.table ["users"] Option.none, joins := [] }]
      text := "SELECT * FROM users" }⟩]

/-- C9 witness: the invariant applied to a concrete successful plan. -/
theorem C9_plan_invariant_witness :
    ∃ p, CrossDatabaseQueryPlanner.plan_query ⟨[("db9", "id-9")]⟩ c9Request c9Statements =
        .ok p ∧
      ((p.merge_strategy.isJoin → 2 ≤ p.sub_queries.length) ∧
        (p.merge_strategy = MergeStrategy.none → p.sub_queries.length = 1)) := by
  cases hok : CrossDatabaseQueryPlanner.plan_query ⟨[("db9", "id-9")]⟩ c9Request c9Statements with
  | error e =>
    have hOk : (CrossDatabaseQueryPlanner.plan_query ⟨[("db9", "id-9")]⟩ c9Request
        c9Statements).isOk = true := by decide
    rw [hok] at hOk
    simp [Except.isOk, Except.toBool] at hOk
  | ok p =>
    exact ⟨p, rfl, C9_plan_invariant ⟨[("db9", "id-9")]⟩ c9Request c9Statements p hok⟩

/-- Well-formed table factor: a named table has a one- or two-part name (three or more
parts are rejected as invalid SQL before qualifier resolution happens). -/
def factorWF : TableFactor → Bool
  | TableFactor.table name _ => name.length == 1 || name.length == 2
  | TableFactor.otherFactor => true

/-- Factor referencing an unknown qualifier: a two-part table name whose qualifier is
absent from the connection map. -/
def factorUnknown (m : List (String × String)) : TableFactor → Bool
  | TableFactor.table [q, _] _ => (m.lookup q).isNone
  | _ => false

/-- SELECT fragments the planner resolves tables in, per query body shape: the body
itself for a plain SELECT, the collected set-operation leaves for a UNION tree, and
nothing for the body shapes the planner rejects. -/
def plannerSelects : SetExpr → List SelectAst
  | SetExpr.select s => [s]
  | SetExpr.setOperation op isAll l r =>
    CrossDatabaseQueryPlanner.extract_set_operation_selects (SetExpr.setOperation op isAll l r)
  | _ => []

/-- Helper: on a well-formed table name, every error of parse_table_name is a
validation error. -/
theorem parse_table_name_error_validation (self : CrossDatabaseQueryPlanner)
    (name : List String) (hwf : (name.length == 1 || name.length == 2) = true)
    (e : AppError) (h : self.parse_table_name name = .error e) :
    ∃ msg, e = AppError.Validation msg := by
  match name with
  | [] => simp at hwf
  | [t] =>
    dsimp only [CrossDatabaseQueryPlanner.parse_table_name] at h
    cases hh : self.connection_map.head? with
    | none =>
      rw [hh] at h
      simp only [Except.error.injEq] at h
      exact ⟨"No connection IDs available", h.symm⟩
    | some kv => rw [hh] at h; exact absurd h (by simp)
  | [q, t] =>
    dsimp only [CrossDatabaseQueryPlanner.parse_table_name] at h
    split at h
    · exact absurd h (by simp)
    · simp only [Except.error.injEq] at h
      exact ⟨_, h.symm⟩
  | a :: b :: c :: rest => simp at hwf

/-- Helper: on well-formed factors, every error of the factor extraction loop is a
validation error. -/
theorem extractFactors_error_validation (self : CrossDatabaseQueryPlanner)
    (fs : List TableFactor) (hwf : ∀ tf ∈ fs, factorWF tf = true) :
    ∀ e, self.extractFactors fs = .error e → ∃ msg, e = AppError.Validation msg := by
  induction fs with
  | nil =>
    intro e h
    exact absurd h (by simp [CrossDatabaseQueryPlanner.extractFactors])
  | cons tf rest ih =>
    intro e h
    cases tf with
    | otherFactor =>
      exact ih (fun x hx => hwf x (List.mem_cons_of_mem _ hx)) e h
    | table name a =>
      unfold CrossDatabaseQueryPlanner.extractFactors at h
      simp only [bind, Except.bind] at h
      cases hp : self.parse_table_name name with
      | error e1 =>
        rw [hp] at h
        simp only [Except.error.injEq] at h
        rw [← h]
        exact parse_table_name_error_validation self name
          (by have := hwf _ (List.mem_cons_self _ _); simpa [factorWF] using this) e1 hp
      | ok qt =>
        rw [hp] at h
        dsimp only at h
        cases hrec : self.extractFactors rest with
        | error e2 =>
          rw [hrec] at h
          simp only [Except.error.injEq] at h
          rw [← h]
          exact ih (fun x hx => hwf x (List.mem_cons_of_mem _ hx)) e2 hrec
        | ok more => rw [hrec] at h; exact absurd h (by simp [pure, Except.pure])

/-- Helper: a factor list containing an unknown-qualifier factor makes the extraction
loop fail with a validation error, provided all factors are well formed. -/
theorem extractFactors_unknown_errors (self : CrossDatabaseQueryPlanner)
    (fs : List TableFactor) (hwf : ∀ tf ∈ fs, factorWF tf = true)
    (hunk : ∃ tf ∈ fs, factorUnknown self.connection_map tf = true) :
    ∃ msg, self.extractFactors fs = .error (AppError.Validation msg) := by
  induction fs with
  | nil => obtain ⟨tf, htf, -⟩ := hunk; exact absurd htf (by simp)
  | cons tf rest ih =>
    obtain ⟨tf0, htf0, hu0⟩ := hunk
    rcases List.mem_cons.mp htf0 with heq | hmem
    · subst heq
      cases tf0 with
      | otherFactor => simp [factorUnknown] at hu0
      | table name a =>
        match name, hu0 with
        | [q, t], hu0 =>
          have hq : self.connection_map.lookup q = Option.none := by
            simpa [factorUnknown, Option.isNone_iff_eq_none] using hu0
          refine ⟨"Unknown database qualifier " ++ q, ?_⟩
          unfold CrossDatabaseQueryPlanner.extractFactors
            CrossDatabaseQueryPlanner.parse_table_name
          simp [hq, bind, Except.bind]
    · cases tf with
      | otherFactor =>
        obtain ⟨msg, hrec⟩ := ih (fun x hx => hwf x (List.mem_cons_of_mem _ hx)) ⟨tf0, hmem, hu0⟩
        exact ⟨msg, by unfold CrossDatabaseQueryPlanner.extractFactors; exact hrec⟩
      | table name a =>
        cases hp : self.parse_table_name name with
        | error e1 =>
          obtain ⟨msg, hmsg⟩ := parse_table_name_error_validation self name
            (by have := hwf _ (List.mem_cons_self _ _); simpa [factorWF] using this) e1 hp
          refine ⟨msg, ?_⟩
          unfold CrossDatabaseQueryPlanner.extractFactors
          rw [hp, ← hmsg]
          simp [bind, Except.bind]
        | ok qt =>
          obtain ⟨msg, hrec⟩ := ih (fun x hx => hwf x (List.mem_cons_of_mem _ hx)) ⟨tf0, hmem, hu0⟩
          refine ⟨msg, ?_⟩
          unfold CrossDatabaseQueryPlanner.extractFactors
          rw [hp]
          simp only [bind, Except.bind]
          rw [hrec]

/-- Helper: a successful parse_table_name yields a qualifier present in the map. -/
theorem parse_table_name_ok_lookup (self : CrossDatabaseQueryPlanner)
    (name : List String) (q t : String) (h : self.parse_table_name name = .ok (q, t)) :
    (self.connection_map.lookup q).isSome = true := by
  match name with
  | [] =>
    dsimp only [CrossDatabaseQueryPlanner.parse_table_name] at h
    exact absurd h (by simp)
  | [t1] =>
    dsimp only [CrossDatabaseQueryPlanner.parse_table_name] at h
    cases hm : self.connection_map with
    | nil => rw [hm] at h; simp at h
    | cons kv tl =>
      obtain ⟨k0, v0⟩ := kv
      rw [hm] at h
      simp only [List.head?, Except.ok.injEq, Prod.mk.injEq] at h
      obtain ⟨hq, -⟩ := h
      rw [← hq]
      simp [List.lookup]
  | [q1, t1] =>
    dsimp only [CrossDatabaseQueryPlanner.parse_table_name] at h
    split at h
    · simp only [Except.ok.injEq, Prod.mk.injEq] at h
      obtain ⟨hq, -⟩ := h
      rw [← hq]
      assumption
    · exact absurd h (by simp)
  | a :: b :: c :: rest =>
    dsimp only [CrossDatabaseQueryPlanner.parse_table_name] at h
    exact absurd h (by simp)

/-- Helper: the qualifier of the first extracted table entry is present in the map. -/
theorem extractFactors_ok_head_lookup (self : CrossDatabaseQueryPlanner)
    (fs : List TableFactor) (q : String) (a : Option String) (t : String)
    (rest2 : List TableEntry) (h : self.extractFactors fs = .ok ((q, a, t) :: rest2)) :
    (self.connection_map.lookup q).isSome = true := by
  induction fs generalizing rest2 with
  | nil => simp [CrossDatabaseQueryPlanner.extractFactors] at h
  | cons tf tfs ih =>
    cases tf with
    | otherFactor => exact ih rest2 h
    | table name al =>
      unfold CrossDatabaseQueryPlanner.extractFactors at h
      simp only [bind, Except.bind] at h
      cases hp : self.parse_table_name name with
      | error e1 => rw [hp] at h; exact absurd h (by simp)
      | ok qt =>
        rw [hp] at h
        dsimp only at h
        cases hrec : self.extractFactors tfs with
        | error e2 => rw [hrec] at h; exact absurd h (by simp)
        | ok more =>
          rw [hrec] at h
          simp only [pure, Except.pure, Except.ok.injEq, List.cons.injEq, Prod.mk.injEq] at h
          obtain ⟨⟨hq, -⟩, -⟩ := h
          rw [← hq]
          exact parse_table_name_ok_lookup self name qt.1 qt.2 (by rw [hp])

/-- Helper: the union sub-query loop fails with a validation error as soon as some
fragment references an unknown qualifier, provided all factors are well formed. -/
theorem buildUnion_unknown_errors (self : CrossDatabaseQueryPlanner) (ss : List SelectAst)
    (hwf : ∀ s ∈ ss, ∀ tf ∈ CrossDatabaseQueryPlanner.selectFactors s, factorWF tf = true)
    (hunk : ∃ s ∈ ss, ∃ tf ∈ CrossDatabaseQueryPlanner.selectFactors s,
      factorUnknown self.connection_map tf = true) :
    ∀ idx, ∃ msg, self.buildUnionSubQueries ss idx = .error (AppError.Validation msg) := by
  induction ss with
  | nil => obtain ⟨s, hs, -⟩ := hunk; exact absurd hs (by simp)
  | cons s rest ih =>
    intro idx
    cases hts : self.extract_tables s with
    | error e =>
      obtain ⟨msg, hmsg⟩ := extractFactors_error_validation self _
        (hwf s (List.mem_cons_self _ _)) e hts
      refine ⟨msg, ?_⟩
      unfold CrossDatabaseQueryPlanner.buildUnionSubQueries
      rw [hts, ← hmsg]
      simp [bind, Except.bind]
    | ok tables =>
      have hsClean : ¬ ∃ tf ∈ CrossDatabaseQueryPlanner.selectFactors s,
          factorUnknown self.connection_map tf = true := by
        intro hc
        obtain ⟨msg, hcontra⟩ := extractFactors_unknown_errors self _
          (hwf s (List.mem_cons_self _ _)) hc
        rw [CrossDatabaseQueryPlanner.extract_tables] at hts
        rw [hts] at hcontra
        exact absurd hcontra (by simp)
      have hunkRest : ∃ s0 ∈ rest, ∃ tf ∈ CrossDatabaseQueryPlanner.selectFactors s0,
          factorUnknown self.connection_map tf = true := by
        obtain ⟨s0, hs0, htf⟩ := hunk
        rcases List.mem_cons.mp hs0 with heq | hmem
        · subst heq; exact absurd htf hsClean
        · exact ⟨s0, hmem, htf⟩
      have ihApplied := ih (fun x hx => hwf x (List.mem_cons_of_mem _ hx)) hunkRest
      cases tables with
      | nil =>
        obtain ⟨msg, hrest⟩ := ihApplied (idx + 1)
        refine ⟨msg, ?_⟩
        unfold CrossDatabaseQueryPlanner.buildUnionSubQueries
        rw [hts]
        simp only [bind, Except.bind]
        exact hrest
      | cons e0 rest3 =>
        obtain ⟨q, a, t⟩ := e0
        have hq : (self.connection_map.lookup q).isSome = true :=
          extractFactors_ok_head_lookup self _ q a t rest3 hts
        obtain ⟨conn, hconn⟩ := Option.isSome_iff_exists.mp hq
        obtain ⟨msg, hrest⟩ := ihApplied (idx + 1)
        refine ⟨msg, ?_⟩
        unfold CrossDatabaseQueryPlanner.buildUnionSubQueries
        rw [hts]
        simp only [bind, Except.bind]
        rw [hconn]
        dsimp only
        rw [hrest]

/-- C6: every query (plain SELECT or UNION tree) that references a qualifier absent
from the alias map fails planning with a ValidationError; planning is a pure function
of the request and the parsed AST, so no I/O happens and no sub-query is dispatched.
The well-formedness hypothesis restricts table names to the one- or two-part shapes
(three-part names are rejected earlier as invalid SQL). -/
theorem C6_unknown_qualifier_validation (planner : CrossDatabaseQueryPlanner)
    (req : CrossDatabaseQueryRequest) (body : SetExpr) (rest : List Statement)
    (hval : req.validate = .ok ())
    (hshape : (match body with
      | SetExpr.select _ => True
      | SetExpr.setOperation _ _ _ _ => True
      | _ => False))
    (hwf : ∀ s ∈ plannerSelects body, ∀ tf ∈ CrossDatabaseQueryPlanner.selectFactors s,
      factorWF tf = true)
    (hunk : ∃ s ∈ plannerSelects body, ∃ tf ∈ CrossDatabaseQueryPlanner.selectFactors s,
      factorUnknown planner.connection_map tf = true) :
    ∃ msg, planner.plan_query req (Statement.query ⟨body⟩ :: rest) =
      .error (AppError.Validation msg) := by
  unfold CrossDatabaseQueryPlanner.plan_query
  rw [hval]
  dsimp only
  unfold CrossDatabaseQueryPlanner.plan_select_query
  cases body with
  | valuesExpr => exact absurd hshape (by simp)
  | query inner => exact absurd hshape (by simp)
  | select s =>
    obtain ⟨s0, hs0, hoff⟩ := hunk
    have hs0eq : s0 = s := by simpa [plannerSelects] using hs0
    subst hs0eq
    obtain ⟨msg, herr⟩ := extractFactors_unknown_errors planner _
      (hwf s0 (by simp [plannerSelects])) hoff
    refine ⟨msg, ?_⟩
    dsimp only
    rw [show planner.extract_tables s0 = .error (AppError.Validation msg) from herr]
    simp [bind, Except.bind]
  | setOperation op isAll l r =>
    dsimp only
    unfold CrossDatabaseQueryPlanner.plan_union_query
    cases hsel : CrossDatabaseQueryPlanner.extract_set_operation_selects
        (SetExpr.setOperation op isAll l r) with
    | nil =>
      obtain ⟨s0, hs0, -⟩ := hunk
      rw [show plannerSelects (SetExpr.setOperation op isAll l r) =
        CrossDatabaseQueryPlanner.extract_set_operation_selects
          (SetExpr.setOperation op isAll l r) from rfl, hsel] at hs0
      exact absurd hs0 (by simp)
    | cons s0 ss =>
      have hwf2 : ∀ s ∈ s0 :: ss, ∀ tf ∈ CrossDatabaseQueryPlanner.selectFactors s,
          factorWF tf = true := by rw [← hsel]; exact hwf
      have hunk2 : ∃ s ∈ s0 :: ss, ∃ tf ∈ CrossDatabaseQueryPlanner.selectFactors s,
          factorUnknown planner.connection_map tf = true := by rw [← hsel]; exact hunk
      obtain ⟨msg, hbu⟩ := buildUnion_unknown_errors planner (s0 :: ss) hwf2 hunk2 0
      refine ⟨msg, ?_⟩
      unfold CrossDatabaseQueryPlanner.extract_union_selects
      rw [hsel]
      simp only [bind, Except.bind]
      rw [hbu]

/-- Request used by the C6 witness. -/
def c6Request : CrossDatabaseQueryRequest :=
  { query := "SELECT * FROM unknown.users"
    connection_ids := ["conn1"]
    database_aliases := Option.none
    timeout_secs := Option.none
    apply_limit := Option.none
    limit_value := Option.none }

/-- Query body used by the C6 witness: a SELECT over a table qualified with a
qualifier absent from the alias map. -/
def c6Body : SetExpr :=
  SetExpr.select
    { fromClause := [{ relation := TableFactor.table ["unknown", "users"] Option.none, joins := [] }]
      text := "SELECT * FROM unknown.users" }

/-- C6 witness: the general theorem applied to a concrete query referencing the
qualifier unknown against a map holding only conn1. -/
theorem C6_unknown_qualifier_validation_witness :
    ∃ msg, CrossDatabaseQueryPlanner.plan_query ⟨[("conn1", "conn1")]⟩ c6Request
      [Statement.query ⟨c6Body⟩] = .error (AppError.Validation msg) :=
  C6_unknown_qualifier_validation ⟨[("conn1", "conn1")]⟩ c6Request c6Body []
    (by decide)
    (by trivial)
    (by
      intro s hs tf htf
      simp only [plannerSelects, c6Body, List.mem_singleton] at hs
      subst hs
      simp only [CrossDatabaseQueryPlanner.selectFactors, List.flatMap_cons, List.map_nil,
        List.flatMap_nil, List.append_nil, List.mem_singleton] at htf
      subst htf
      decide)
    (⟨{ fromClause := [{ relation := TableFactor.table ["unknown", "users"] Option.none, joins := [] }]
        text := "SELECT * FROM unknown.users" },
      by simp [plannerSelects, c6Body],
      TableFactor.table ["unknown", "users"] Option.none,
      by simp [CrossDatabaseQueryPlanner.selectFactors],
      by decide⟩)

/-- Uniform view of one batch cell value, across the three column types. -/
inductive ArrowCell where
  | i (n : Int)
  | f (x : F64)
  | s (t : String)
  deriving DecidableEq

/-- Cell of a column at a row index: none when the index is out of range, some none
when the null bit is set. -/
def ArrowColumn.cell? : ArrowColumn → Nat → Option (Option ArrowCell)
  | .int64 vs, j => (vs[j]?).map (fun o => o.map ArrowCell.i)
  | .float64 vs, j => (vs[j]?).map (fun o => o.map ArrowCell.f)
  | .utf8 vs, j => (vs[j]?).map (fun o => o.map ArrowCell.s)

/-- Cell of a batch at a column and row index. -/
def RecordBatch.cell? (b : RecordBatch) (i j : Nat) : Option (Option ArrowCell) :=
  (b.columns[i]?).bind (fun c => c.cell? j)

/-- Helper: every built column spans exactly the input rows. -/
theorem buildColumn_length (rows : List Json) (k : String) (dt : ArrowDataType) :
    (buildColumn rows k dt).length = rows.length := by
  cases dt <;> simp [buildColumn, ArrowColumn.length]

/-- Helper: for a non-boolean inferred type the built column matches the schema. -/
theorem buildColumn_dataType (rows : List Json) (k : String) (dt : ArrowDataType)
    (h : dt ≠ ArrowDataType.boolean) : (buildColumn rows k dt).dataType = dt := by
  cases dt with
  | boolean => exact absurd rfl h
  | int64 => rfl
  | float64 => rfl
  | utf8 => rfl

/-- Helper: the Arrow type check of the batch construction passes on every field list
free of booleans. -/
theorem zip_types_check (rows : List Json) (l : List (String × JVal))
    (hnb : ∀ kv ∈ l, inferDataType kv.2 ≠ ArrowDataType.boolean) :
    (((l.map (fun kv =>
          ({ name := kv.1, dataType := inferDataType kv.2, nullable := true } : ArrowField))).zip
        (l.map (fun kv => buildColumn rows kv.1 (inferDataType kv.2)))).all
      (fun p => p.2.dataType == p.1.dataType)) = true := by
  induction l with
  | nil => rfl
  | cons kv kvs ih =>
    simp only [List.map_cons, List.zip_cons_cons, List.all_cons, Bool.and_eq_true]
    constructor
    · have hdt := buildColumn_dataType rows kv.1 (inferDataType kv.2)
        (hnb kv (List.mem_cons_self _ _))
      simp [hdt]
    · exact ih (fun x hx => hnb x (List.mem_cons_of_mem _ hx))

/-- Helper: integer cells pass through an Int64 column. -/
theorem buildColumn_cell_int (rows : List Json) (k : String) (j : Nat) (row : Json)
    (n : Int) (hj : rows[j]? = some row) (hcell : row.get k = some (JVal.int n)) :
    (buildColumn rows k ArrowDataType.int64).cell? j = some (some (ArrowCell.i n)) := by
  simp [buildColumn, ArrowColumn.cell?, List.getElem?_map, hj, hcell, JVal.asI64]

/-- Helper: float cells pass through a Float64 column. -/
theorem buildColumn_cell_float (rows : List Json) (k : String) (j : Nat) (row : Json)
    (x : F64) (hj : rows[j]? = some row) (hcell : row.get k = some (JVal.float x)) :
    (buildColumn rows k ArrowDataType.float64).cell? j = some (some (ArrowCell.f x)) := by
  simp [buildColumn, ArrowColumn.cell?, List.getElem?_map, hj, hcell, JVal.asF64]

/-- Helper: string cells pass through a Utf8 column. -/
theorem buildColumn_cell_str (rows : List Json) (k : String) (j : Nat) (row : Json)
    (t : String) (hj : rows[j]? = some row) (hcell : row.get k = some (JVal.str t)) :
    (buildColumn rows k ArrowDataType.utf8).cell? j = some (some (ArrowCell.s t)) := by
  simp [buildColumn, ArrowColumn.cell?, List.getElem?_map, hj, hcell, JVal.asStr]

/-- Helper: null or missing cells become the null bit in every non-boolean column. -/
theorem buildColumn_cell_null (rows : List Json) (k : String) (j : Nat) (row : Json)
    (dt : ArrowDataType) (hdt : dt ≠ ArrowDataType.boolean) (hj : rows[j]? = some row)
    (hcell : row.get k = some JVal.null ∨ row.get k = Option.none) :
    (buildColumn rows k dt).cell? j = some Option.none := by
  cases dt with
  | boolean => exact absurd rfl hdt
  | int64 =>
    rcases hcell with hcell | hcell <;>
      simp [buildColumn, ArrowColumn.cell?, List.getElem?_map, hj, hcell, JVal.asI64]
  | float64 =>
    rcases hcell with hcell | hcell <;>
      simp [buildColumn, ArrowColumn.cell?, List.getElem?_map, hj, hcell, JVal.asF64]
  | utf8 =>
    rcases hcell with hcell | hcell <;>
      simp [buildColumn, ArrowColumn.cell?, List.getElem?_map, hj, hcell, JVal.asStr]

/-- Helper: non-primitive cells become the null bit in every non-boolean column, never
a string rendering. -/
theorem buildColumn_cell_other (rows : List Json) (k : String) (j : Nat) (row : Json)
    (r : String) (dt : ArrowDataType) (hdt : dt ≠ ArrowDataType.boolean)
    (hj : rows[j]? = some row) (hcell : row.get k = some (JVal.other r)) :
    (buildColumn rows k dt).cell? j = some Option.none := by
  cases dt with
  | boolean => exact absurd rfl hdt
  | int64 => simp [buildColumn, ArrowColumn.cell?, List.getElem?_map, hj, hcell, JVal.asI64]
  | float64 => simp [buildColumn, ArrowColumn.cell?, List.getElem?_map, hj, hcell, JVal.asF64]
  | utf8 => simp [buildColumn, ArrowColumn.cell?, List.getElem?_map, hj, hcell, JVal.asStr]

/-- C3 amended: for every non-empty row set whose first row is a JSON object holding no
boolean values, the conversion succeeds; columns span all rows; integer, float and
string cells whose row value matches the column type inferred from the first row pass
through unchanged; a null or missing cell becomes the columnar null bit; and a cell
holding an unrecognized (non-primitive) value also becomes null, not a string
rendering. A boolean value in the first row instead makes the whole conversion error
(see the counterexample). -/
theorem C3_conversion_passthrough (fields0 : List (String × JVal)) (rest : List Json)
    (hnb : ∀ kv ∈ fields0, inferDataType kv.2 ≠ ArrowDataType.boolean) :
    ∃ b, json_to_record_batch (Json.obj fields0 :: rest) = .ok b ∧
      b.columns.length = fields0.length ∧
      (∀ c ∈ b.columns, c.length = (Json.obj fields0 :: rest).length) ∧
      (∀ i k n0, fields0[i]? = some (k, JVal.int n0) →
        ∀ j row n, (Json.obj fields0 :: rest)[j]? = some row →
          row.get k = some (JVal.int n) → b.cell? i j = some (some (ArrowCell.i n))) ∧
      (∀ i k x0, fields0[i]? = some (k, JVal.float x0) →
        ∀ j row x, (Json.obj fields0 :: rest)[j]? = some row →
          row.get k = some (JVal.float x) → b.cell? i j = some (some (ArrowCell.f x))) ∧
      (∀ i k t0, fields0[i]? = some (k, JVal.str t0) →
        ∀ j row t, (Json.obj fields0 :: rest)[j]? = some row →
          row.get k = some (JVal.str t) → b.cell? i j = some (some (ArrowCell.s t))) ∧
      (∀ i k v, fields0[i]? = some (k, v) →
        ∀ j row, (Json.obj fields0 :: rest)[j]? = some row →
          (row.get k = some JVal.null ∨ row.get k = Option.none) →
          b.cell? i j = some Option.none) ∧
      (∀ i k v, fields0[i]? = some (k, v) →
        ∀ j row r, (Json.obj fields0 :: rest)[j]? = some row →
          row.get k = some (JVal.other r) → b.cell? i j = some Option.none) := by
  have hok : json_to_record_batch (Json.obj fields0 :: rest) =
      .ok { schema := fields0.map (fun kv =>
              { name := kv.1, dataType := inferDataType kv.2, nullable := true })
            columns := fields0.map (fun kv =>
              buildColumn (Json.obj fields0 :: rest) kv.1 (inferDataType kv.2)) } := by
    dsimp only [json_to_record_batch, Json.asObject]
    unfold recordBatchTryNew
    rw [if_pos]
    refine (Bool.and_eq_true _ _).mpr ⟨(Bool.and_eq_true _ _).mpr ⟨?_, ?_⟩, ?_⟩
    · simp
    · exact zip_types_check (Json.obj fields0 :: rest) fields0 hnb
    · rw [List.all_eq_true]
      intro c hc
      obtain ⟨kv, hkv, hceq⟩ := List.mem_map.mp hc
      rw [← hceq, buildColumn_length]
      cases fields0 with
      | nil => exact absurd hkv (by simp)
      | cons kv0 kvs =>
        simp [List.head?, buildColumn_length]
  refine ⟨_, hok, ?_, ?_, ?_, ?_, ?_, ?_, ?_⟩
  · simp
  · intro c hc
    obtain ⟨kv, hkv, hceq⟩ := List.mem_map.mp hc
    rw [← hceq, buildColumn_length]
  · intro i k n0 hik j row n hj hcell
    simp only [RecordBatch.cell?, List.getElem?_map, hik, Option.map_some', Option.some_bind]
    exact buildColumn_cell_int _ k j row n hj hcell
  · intro i k x0 hik j row x hj hcell
    simp only [RecordBatch.cell?, List.getElem?_map, hik, Option.map_some', Option.some_bind]
    exact buildColumn_cell_float _ k j row x hj hcell
  · intro i k t0 hik j row t hj hcell
    simp only [RecordBatch.cell?, List.getElem?_map, hik, Option.map_some', Option.some_bind]
    exact buildColumn_cell_str _ k j row t hj hcell
  · intro i k v hik j row hj hcell
    simp only [RecordBatch.cell?, List.getElem?_map, hik, Option.map_some', Option.some_bind]
    exact buildColumn_cell_null _ k j row (inferDataType v)
      (hnb (k, v) (List.getElem?_mem hik)) hj hcell
  · intro i k v hik j row r hj hcell
    simp only [RecordBatch.cell?, List.getElem?_map, hik, Option.map_some', Option.some_bind]
    exact buildColumn_cell_other _ k j row r (inferDataType v)
      (hnb (k, v) (List.getElem?_mem hik)) hj hcell

/-- C3 witness: the amended theorem applied to a concrete two-row set mixing integer,
string and null cells. -/
theorem C3_conversion_passthrough_witness :
    ∃ b, json_to_record_batch
        [Json.obj [("id", JVal.int 1), ("name", JVal.str "A")],
         Json.obj [("id", JVal.null), ("name", JVal.str "B")]] = .ok b := by
  obtain ⟨b, hb, -⟩ := C3_conversion_passthrough
    [("id", JVal.int 1), ("name", JVal.str "A")]
    [Json.obj [("id", JVal.null), ("name", JVal.str "B")]]
    (by decide)
  exact ⟨b, hb⟩

end DbQuery
